import Mathlib

/-!
Verification of the Article Analysis & Timeline Synthesis Engine
(`backend/services/nlp_processor.py`, `backend/services/similarity_analyzer.py`,
`backend/services/timeline_generator.py`).

The Python code is shallowly embedded: dictionaries become structures, float
arithmetic is modelled exactly by rationals (and by reals where the library
computes logarithms and square roots), raised exceptions become `Option.none`,
and Python `set` values are modelled by duplicate-free lists.  Properties that
depend only on set membership or cardinality are independent of the unspecified
iteration order of a Python `set`; wherever such an order leaks into a result
we fix first-occurrence order and prove only order-independent facts.
-/

namespace News

/-- The three language tags produced by `NLPProcessor._detect_language`. -/
inductive Language where
  | th
  | en
  | mixed
deriving DecidableEq, Repr

/-- A calendar day, the grouping key produced by `strftime('%Y-%m-%d')`.
For four-digit years that string is ordered exactly like the lexicographic
(year, month, day) order used here. -/
structure Date where
  year : Nat
  month : Nat
  day : Nat
deriving DecidableEq, Repr

/-- Strict lexicographic order on calendar days. -/
def Date.Lt (a b : Date) : Prop :=
  a.year < b.year ∨ (a.year = b.year ∧
    (a.month < b.month ∨ (a.month = b.month ∧ a.day < b.day)))

/-- Non-strict order on calendar days. -/
def Date.Le (a b : Date) : Prop :=
  Date.Lt a b ∨ a = b

instance (a b : Date) : Decidable (Date.Lt a b) := by
  unfold Date.Lt; infer_instance

instance (a b : Date) : Decidable (Date.Le a b) := by
  unfold Date.Le; infer_instance

/-- A Python `datetime`: a calendar day plus the time of day (an abstract
tick count), compared lexicographically like `datetime` comparison. -/
structure Datetime where
  date : Date
  tick : Nat
deriving DecidableEq, Repr

/-- The `datetime` total order. -/
def Datetime.Le (a b : Datetime) : Prop :=
  Date.Lt a.date b.date ∨ (a.date = b.date ∧ a.tick ≤ b.tick)

instance (a b : Datetime) : Decidable (Datetime.Le a b) := by
  unfold Datetime.Le; infer_instance

/-- Boolean form of `Datetime.Le`, the key comparison of Python `sorted`. -/
def dtLeB (a b : Datetime) : Bool := decide (Datetime.Le a b)

/-- Default datetime, stands for no particular instant. -/
def dtZero : Datetime := ⟨⟨0, 0, 0⟩, 0⟩

/-- One entry of `content_dates` as built by
`NLPProcessor._extract_dates_from_text`. -/
structure ContentDate where
  date_string : String
  parsed_date : Datetime
  position : Nat
deriving DecidableEq, Repr

/-- One `{'keyword': ..., 'score': ...}` record. -/
structure Keyword where
  keyword : String
  score : ℚ
deriving DecidableEq, Repr

/-- The `entities` mapping of an enriched article.  `_extract_entities`
always produces exactly the four keys PERSON, ORGANIZATION, LOCATION, MISC
(in that insertion order), each holding a deduplicated list. -/
structure Entities where
  person : List String
  organization : List String
  location : List String
  misc : List String
deriving DecidableEq, Repr

/-- An (enriched) article record.  Fields of the Python dictionary that no
embedded operation reads (`tokens`, `events`, `processed_at`, ...) are
omitted.  `timeline_date` models the key that
`TimelineGenerator._filter_and_sort_articles` writes into the dictionary;
it is absent (`none`) on every record the enricher produces. -/
structure Article where
  mid : Option String := none
  url : String := ""
  source : String := ""
  title : String := ""
  content : String := ""
  published_date : Option Datetime := none
  scraped_at : Option Datetime := none
  language : Language := Language.th
  entities : Entities := ⟨[], [], [], []⟩
  keywords : List Keyword := []
  content_dates : List ContentDate := []
  word_count : Nat := 0
  timeline_date : Option Datetime := none
deriving DecidableEq, Repr

/-! ## Language detection (`NLPProcessor._detect_language`) -/

/-- Membership in the regex class `[ก-ฮ]` (U+0E01 .. U+0E2E). -/
def isThaiConsonant (c : Char) : Bool :=
  0x0E01 ≤ c.toNat && c.toNat ≤ 0x0E2E

/-- Membership in the regex class `[a-zA-Z]`. -/
def isLatinLetter (c : Char) : Bool :=
  (0x61 ≤ c.toNat && c.toNat ≤ 0x7A) || (0x41 ≤ c.toNat && c.toNat ≤ 0x5A)

/-- `len(re.findall(r'[ก-ฮ]', text))`. -/
def thaiCharCount (s : String) : Nat := (s.toList.filter isThaiConsonant).length

/-- `len(re.findall(r'[a-zA-Z]', text))`. -/
def latinCharCount (s : String) : Nat := (s.toList.filter isLatinLetter).length

/-- `NLPProcessor._detect_language`. -/
def detectLanguage (s : String) : Language :=
  if thaiCharCount s > latinCharCount s then Language.th
  else if latinCharCount s > thaiCharCount s then Language.en
  else Language.mixed

/-! ## Event intensity (`TimelineGenerator._calculate_event_intensity`) -/

/-- The `source_credibility` lookup table, defaulting to 0.5. -/
def sourceCredibility (s : String) : ℚ :=
  if s = "Bangkok Post" then 9/10
  else if s = "The Nation Thailand" then 9/10
  else if s = "Thai PBS" then 19/20
  else if s = "Thairath" then 4/5
  else if s = "Khaosod" then 4/5
  else if s = "Matichon" then 17/20
  else if s = "Manager" then 7/10
  else if s = "Sanook" then 3/5
  else if s = "Kapook" then 3/5
  else if s = "Daily News" then 7/10
  else 1/2

/-- `sum(len(entities) for entities in article['entities'].values())`. -/
def entityTotal (e : Entities) : Nat :=
  e.person.length + e.organization.length + e.location.length + e.misc.length

/-- The per-article score accumulated inside
`_calculate_event_intensity` (weights 0.3, 0.2, 0.2, 0.3). -/
def articleScore (a : Article) : ℚ :=
  (entityTotal a.entities : ℚ) * (3/10)
  + (a.keywords.length : ℚ) * (2/10)
  + min ((a.word_count : ℚ) / 1000) 1 * (2/10)
  + sourceCredibility a.source * (3/10)

/-- `TimelineGenerator._calculate_event_intensity`. -/
def eventIntensity (articles : List Article) : ℚ :=
  if articles = [] then 0
  else min ((articles.map articleScore).sum / (articles.length : ℚ) * 2) 10

/-! ## Timeline generation (`TimelineGenerator`) -/

/-- Deduplication keeping the first occurrence of each element, the key
order of a Python `dict`/`defaultdict` built by insertion. -/
def firstDedup {α : Type} [DecidableEq α] : List α → List α
  | [] => []
  | k :: rest => k :: (firstDedup rest).filter (fun x => decide (x ≠ k))

/-- `TimelineGenerator._filter_and_sort_articles`, date resolution part:
`published_date`, else first entry of `content_dates`, else `scraped_at`. -/
def resolveDate (a : Article) : Option Datetime :=
  match a.published_date with
  | some d => some d
  | none =>
    match a.content_dates.head? with
    | some cd => some cd.parsed_date
    | none => a.scraped_at

/-- The in-place mutation `article['timeline_date'] = article_date`,
modelled functionally: the returned record differs from the input in the
`timeline_date` field. -/
def setTimelineDate (a : Article) : Option Article :=
  (resolveDate a).map (fun d => { a with timeline_date := some d })

/-- The sort key comparison `lambda x: x['timeline_date']`. -/
def artLeB (a b : Article) : Bool :=
  dtLeB (a.timeline_date.getD dtZero) (b.timeline_date.getD dtZero)

/-- `TimelineGenerator._filter_and_sort_articles`: keep the articles with a
resolvable date (stamping `timeline_date`) and sort them by that date.
`List.mergeSort` is stable, like Python `sorted`. -/
def filterAndSort (arts : List Article) : List Article :=
  (arts.filterMap setTimelineDate).mergeSort artLeB

/-- `article['timeline_date'].strftime('%Y-%m-%d')`: the calendar-day key.
`timeline_date` is present on every article `filterAndSort` returns; the
default covers the (unreachable there) missing case. -/
def articleKey (a : Article) : Date := (a.timeline_date.getD dtZero).date

/-- `TimelineGenerator._group_articles_by_date`: a `defaultdict(list)`
keyed by calendar day; key order is first-appearance order, every article
with a given key lands in that key's group in input order. -/
def groupByDate (arts : List Article) : List (Date × List Article) :=
  (firstDedup (arts.map articleKey)).map
    (fun k => (k, arts.filter (fun a => decide (articleKey a = k))))

/-- All entity strings of one article in the dictionary iteration order
PERSON, ORGANIZATION, LOCATION, MISC. -/
def entityStrings (a : Article) : List String :=
  a.entities.person ++ a.entities.organization ++ a.entities.location
    ++ a.entities.misc

/-- `TimelineGenerator._merge_entities`: frequency count across the group,
sorted by descending count (Python `sorted(..., reverse=True)` is stable,
ties keep first-appearance order), top 15 kept. -/
def mergeEntities (grp : List Article) : List String :=
  let occ := grp.flatMap entityStrings
  let counted := (firstDedup occ).map (fun e => (e, occ.count e))
  ((counted.mergeSort (fun p q => decide (q.2 ≤ p.2))).take 15).map (fun p => p.1)

/-- `TimelineGenerator._merge_keywords`: per keyword string, the sum of its
scores across the group, sorted by descending score (stable). -/
def mergeKeywords (grp : List Article) : List Keyword :=
  let pairs := grp.flatMap (fun a => a.keywords)
  let ks := firstDedup (pairs.map (fun p => p.keyword))
  let scored := ks.map (fun k =>
    (k, ((pairs.filter (fun p => decide (p.keyword = k))).map
          (fun p => p.score)).sum))
  (scored.mergeSort (fun p q => decide (q.2 ≤ p.2))).map
    (fun p => { keyword := p.1, score := p.2 })

/-- `TimelineGenerator._generate_event_title`. -/
def eventTitle (grp : List Article) (entities : List String) : String :=
  match grp with
  | [a] => a.title
  | _ =>
    match entities with
    | e :: _ => "News about " ++ e ++ " (" ++ toString grp.length ++ " articles)"
    | [] => "Multiple news events (" ++ toString grp.length ++ " articles)"

/-- `list(set(...))` over the group's sources; Python set order is
unspecified, first-occurrence order is fixed here and no verified property
depends on it. -/
def groupSources (grp : List Article) : List String :=
  firstDedup (grp.map (fun a => a.source))

/-- `TimelineGenerator._generate_event_description`. -/
def eventDescription (grp : List Article) (keywords : List Keyword) : String :=
  let sources := groupSources grp
  let parts :=
    (if 1 < grp.length then
      [toString grp.length ++ " articles from " ++ toString sources.length
        ++ " source(s)"]
     else [])
    ++ (if keywords ≠ [] then
      ["Key topics: " ++ String.intercalate ", "
        ((keywords.take 5).map (fun k => k.keyword))]
     else [])
    ++ (if sources ≠ [] then ["Sources: " ++ String.intercalate ", " sources]
     else [])
  String.intercalate ". " parts

/-- The article reference dictionaries stored on a timeline event. -/
structure ArticleRef where
  rid : String
  title : String
  source : String
  url : String
deriving DecidableEq, Repr

/-- One timeline event as built by
`TimelineGenerator._extract_timeline_events`. -/
structure TimelineEvent where
  eid : Nat
  date : Date
  title : String
  description : String
  intensity : ℚ
  entities : List String
  keywords : List Keyword
  sources : List String
  article_count : Nat
  articles : List ArticleRef
deriving DecidableEq, Repr

/-- One loop iteration of `_extract_timeline_events`: the event built
from the date group at loop position `p.1` (ids start from 1). -/
def mkEvent (p : Nat × (Date × List Article)) : TimelineEvent :=
  let grp := p.2.2
  let allE := mergeEntities grp
  let allK := mergeKeywords grp
  { eid := p.1 + 1
    date := p.2.1
    title := eventTitle grp allE
    description := eventDescription grp allK
    intensity := eventIntensity grp
    entities := allE
    keywords := allK.take 10
    sources := groupSources grp
    article_count := grp.length
    articles := grp.enum.map (fun q =>
      { rid := q.2.mid.getD ("article_" ++ toString q.1)
        title := q.2.title
        source := q.2.source
        url := q.2.url }) }

/-- `TimelineGenerator._extract_timeline_events` applied to the ordered
date groups. -/
def mkEvents (groups : List (Date × List Article)) : List TimelineEvent :=
  groups.enum.map mkEvent

/-- The `events` list of `TimelineGenerator.generate_timeline`. -/
def timelineEvents (arts : List Article) : List TimelineEvent :=
  mkEvents (groupByDate (filterAndSort arts))

/-- The result of `generate_timeline`.  `statistics` and `generated_at`
are not referenced by any verified property and are omitted. -/
structure TimelineResult where
  events : List TimelineEvent
  chart_labels : List Date
  chart_intensity : List ℚ
  chart_article_counts : List Nat
  date_range : Option (Date × Date)
  total_articles : Nat
deriving DecidableEq, Repr

/-- `TimelineGenerator.generate_timeline`.  The chart series re-sort the
events by date; `date_range` takes the minimum and maximum resolved date
(head and last of the sorted dated articles). -/
def generateTimeline (arts : List Article) : TimelineResult :=
  let dated := filterAndSort arts
  let evts := timelineEvents arts
  let sortedE := evts.mergeSort (fun e f => decide (Date.Le e.date f.date))
  { events := evts
    chart_labels := sortedE.map (fun e => e.date)
    chart_intensity := sortedE.map (fun e => e.intensity)
    chart_article_counts := sortedE.map (fun e => e.article_count)
    date_range :=
      match dated with
      | [] => none
      | a :: rest =>
        some (articleKey a, articleKey (List.getLast (a :: rest) (by simp)))
    total_articles := arts.length }

/-! ## Text preprocessing (`SimilarityAnalyzer._preprocess_text`)

Character classes: `\w` (Python, Unicode) is modelled on the scripts this
repository processes — ASCII alphanumerics, the underscore and the Thai
letters/digits; `\s` is modelled by the ASCII whitespace characters. -/

/-- ASCII whitespace, the model of the regex class `\s`. -/
def isWs (c : Char) : Bool :=
  c = ' ' || c = '\t' || c = '\n' || c = '\r' || c = '\x0b' || c = '\x0c'

/-- Thai letters and digits (general categories Lo/Lm/Nd of the Thai
block), the characters of that block matched by Python `\w`. -/
def isThaiWordChar (c : Char) : Bool :=
  (0x0E01 ≤ c.toNat && c.toNat ≤ 0x0E2E) || c.toNat = 0x0E30
  || c.toNat = 0x0E32 || c.toNat = 0x0E33
  || (0x0E40 ≤ c.toNat && c.toNat ≤ 0x0E46)
  || (0x0E50 ≤ c.toNat && c.toNat ≤ 0x0E59)

/-- The model of the regex class `\w`. -/
def isWordChar (c : Char) : Bool :=
  c.isAlphanum || c = '_' || isThaiWordChar c

/-- `re.sub(r'\s+', ' ', text)`: every maximal whitespace run becomes one
space.  The flag records whether the previous character was whitespace. -/
def collapseWsAux : Bool → List Char → List Char
  | _, [] => []
  | prevWs, c :: rest =>
    if isWs c then
      if prevWs then collapseWsAux true rest
      else ' ' :: collapseWsAux true rest
    else c :: collapseWsAux false rest

/-- `str.strip()`. -/
def stripChars (cs : List Char) : List Char :=
  ((cs.dropWhile isWs).reverse.dropWhile isWs).reverse

/-- `str.strip()` on strings. -/
def pyStrip (s : String) : String := String.mk (stripChars s.toList)

/-- `SimilarityAnalyzer._preprocess_text`: collapse whitespace, replace
`[^\w\s]` by spaces, lower-case, strip.  (The `language` parameter of the
Python function is unused.) -/
def preprocess (text : String) : String :=
  if text = "" then ""
  else
    let s1 := collapseWsAux false text.toList
    let s2 := s1.map (fun c => if !(isWordChar c) && !(isWs c) then ' ' else c)
    String.mk (stripChars (s2.map Char.toLower))

/-! ## The TF-IDF vectorizer (`sklearn.TfidfVectorizer`) as configured by
`_calculate_content_similarity`: `max_features=1000`, `ngram_range=(1,2)`,
`stop_words='english'` iff the (first) article's language is `'en'`,
otherwise no stop words; all remaining parameters at their defaults
(`smooth_idf=True`, `sublinear_tf=False`, `norm='l2'`,
token pattern `\b\w\w+\b`, lowercase input — already lower-cased by the
preprocessing above). -/

/-- scikit-learn's frozen English stop-word list. -/
def englishStopWords : List String :=
  ["a", "about", "above", "across", "after", "afterwards", "again",
   "against", "all", "almost", "alone", "along", "already", "also",
   "although", "always", "am", "among", "amongst", "amoungst", "amount",
   "an", "and", "another", "any", "anyhow", "anyone", "anything", "anyway",
   "anywhere", "are", "around", "as", "at", "back", "be", "became",
   "because", "become", "becomes", "becoming", "been", "before",
   "beforehand", "behind", "being", "below", "beside", "besides",
   "between", "beyond", "bill", "both", "bottom", "but", "by", "call",
   "can", "cannot", "cant", "co", "con", "could", "couldnt", "cry", "de",
   "describe", "detail", "do", "done", "down", "due", "during", "each",
   "eg", "eight", "either", "eleven", "else", "elsewhere", "empty",
   "enough", "etc", "even", "ever", "every", "everyone", "everything",
   "everywhere", "except", "few", "fifteen", "fifty", "fill", "find",
   "fire", "first", "five", "for", "former", "formerly", "forty", "found",
   "four", "from", "front", "full", "further", "get", "give", "go", "had",
   "has", "hasnt", "have", "he", "hence", "her", "here", "hereafter",
   "hereby", "herein", "hereupon", "hers", "herself", "him", "himself",
   "his", "how", "however", "hundred", "i", "ie", "if", "in", "inc",
   "indeed", "interest", "into", "is", "it", "its", "itself", "keep",
   "last", "latter", "latterly", "least", "less", "ltd", "made", "many",
   "may", "me", "meanwhile", "might", "mill", "mine", "more", "moreover",
   "most", "mostly", "move", "much", "must", "my", "myself", "name",
   "namely", "neither", "never", "nevertheless", "next", "nine", "no",
   "nobody", "none", "noone", "nor", "not", "nothing", "now", "nowhere",
   "of", "off", "often", "on", "once", "one", "only", "onto", "or",
   "other", "others", "otherwise", "our", "ours", "ourselves", "out",
   "over", "own", "part", "per", "perhaps", "please", "put", "rather",
   "re", "same", "see", "seem", "seemed", "seeming", "seems", "serious",
   "several", "she", "should", "show", "side", "since", "sincere", "six",
   "sixty", "so", "some", "somehow", "someone", "something", "sometime",
   "sometimes", "somewhere", "still", "such", "system", "take", "ten",
   "than", "that", "the", "their", "them", "themselves", "then", "thence",
   "there", "thereafter", "thereby", "therefore", "therein", "thereupon",
   "these", "they", "thick", "thin", "third", "this", "those", "though",
   "three", "through", "throughout", "thru", "thus", "to", "together",
   "too", "top", "toward", "towards", "twelve", "twenty", "two", "un",
   "under", "until", "up", "upon", "us", "very", "via", "was", "we",
   "well", "were", "what", "whatever", "when", "whence", "whenever",
   "where", "whereafter", "whereas", "whereby", "wherein", "whereupon",
   "wherever", "whether", "which", "while", "whither", "who", "whoever",
   "whole", "whom", "whose", "why", "will", "with", "within", "without",
   "would", "yet", "you", "your", "yours", "yourself", "yourselves"]

/-- The token pattern `\b\w\w+\b`: maximal word-character runs of length
at least 2. -/
def sklearnTokens (doc : String) : List String :=
  ((doc.toList.splitOnP (fun c => !(isWordChar c))).filter
    (fun r => 2 ≤ r.length)).map (fun r => String.mk r)

/-- Unigrams followed by bigrams (`ngram_range=(1,2)`); stop words are
removed before n-gram construction. -/
def ngramsOf (tokens : List String) : List String :=
  tokens ++ tokens.zipWith (fun a b => a ++ " " ++ b) tokens.tail

/-- The terms of one (already preprocessed) document. -/
def docTerms (doc : String) (useEnglishStop : Bool) : List String :=
  let toks := sklearnTokens doc
  let kept := if useEnglishStop then
      toks.filter (fun t => decide (t ∉ englishStopWords))
    else toks
  ngramsOf kept

/-- Whether `stop_words='english'` is passed (`language == 'en'`). -/
def isEnglishFlag (lang : Language) : Bool := decide (lang = Language.en)

/-- Code-point lexicographic comparison of character lists: the order
Python `sorted` uses on strings and scikit-learn uses on vocabulary
terms. -/
def listLeB : List Char → List Char → Bool
  | [], _ => true
  | _ :: _, [] => false
  | a :: as, b :: bs =>
    if a.toNat < b.toNat then true
    else if b.toNat < a.toNat then false
    else listLeB as bs

/-- Code-point order on strings. -/
def strLeB (a b : String) : Bool := listLeB a.data b.data

/-- Alphabetical sort of a term list. -/
def sortStr (l : List String) : List String :=
  l.mergeSort strLeB

/-- The vocabulary over the two-document corpus: the alphabetically sorted
distinct terms; with more than `max_features = 1000` distinct terms only
the 1000 most frequent are kept (corpus-wide frequency; the tie order of
equally frequent terms is unspecified in the library and fixed
alphabetically here — no verified property depends on it). -/
def buildVocab (t1 t2 : List String) : List String :=
  let all := sortStr ((t1 ++ t2).dedup)
  if all.length ≤ 1000 then all
  else
    let ranked := (all.map (fun t => (t, (t1 ++ t2).count t))).mergeSort
      (fun p q => decide (q.2 < p.2) || (decide (q.2 = p.2) && strLeB p.1 q.1))
    let keep := (ranked.take 1000).map (fun p => p.1)
    all.filter (fun t => decide (t ∈ keep))

/-- Document frequency of a term over the two-document corpus. -/
def dfOf (t1 t2 : List String) (t : String) : Nat :=
  (if t ∈ t1 then 1 else 0) + (if t ∈ t2 then 1 else 0)

/-- Smoothed inverse document frequency for a two-document corpus:
`ln((1+n)/(1+df)) + 1` with `n = 2`. -/
noncomputable def idf (df : Nat) : ℝ :=
  Real.log ((1 + 2) / (1 + (df : ℝ))) + 1

/-- The raw TF-IDF vector of a document over the vocabulary. -/
noncomputable def tfidfVec (terms t1 t2 vocab : List String) : List ℝ :=
  vocab.map (fun t => (terms.count t : ℝ) * idf (dfOf t1 t2 t))

/-- Dot product of two vectors. -/
noncomputable def dotR (u v : List ℝ) : ℝ :=
  (List.zipWith (fun a b => a * b) u v).sum

/-- Cosine similarity as computed by `sklearn.cosine_similarity` (l2
normalisation maps a zero vector to itself, so a zero vector yields 0). -/
noncomputable def cosineSim (u v : List ℝ) : ℝ :=
  if dotR u u = 0 ∨ dotR v v = 0 then 0
  else dotR u v / (Real.sqrt (dotR u u) * Real.sqrt (dotR v v))

/-- The cosine of the two TF-IDF rows of the corpus `[t1, t2]`; with an
empty vocabulary `fit_transform` raises and the caught exception yields
0.0. -/
noncomputable def corpusCosine (t1 t2 : List String) : ℝ :=
  if buildVocab t1 t2 = [] then 0
  else cosineSim (tfidfVec t1 t1 t2 (buildVocab t1 t2))
    (tfidfVec t2 t1 t2 (buildVocab t1 t2))

/-- `SimilarityAnalyzer._calculate_content_similarity`. -/
noncomputable def contentSimilarity (c1 c2 : String) (lang : Language) : ℝ :=
  if c1 = "" ∨ c2 = "" then 0
  else if preprocess c1 = "" ∨ preprocess c2 = "" then 0
  else corpusCosine (docTerms (preprocess c1) (isEnglishFlag lang))
    (docTerms (preprocess c2) (isEnglishFlag lang))

/-! ## Entity and keyword comparison (`_compare_entities`,
`_compare_keywords`) -/

/-- `len(set(l1) & set(l2))`. -/
def countCommon (l1 l2 : List String) : Nat :=
  ((l1.dedup).filter (fun x => decide (x ∈ l2))).length

/-- Common entities summed per entity type. -/
def entityCommonCount (e1 e2 : Entities) : Nat :=
  countCommon e1.person e2.person
  + countCommon e1.organization e2.organization
  + countCommon e1.location e2.location
  + countCommon e1.misc e2.misc

/-- The `similarity` field of `_compare_entities`: `2·|common| /
(total₁ + total₂)` where the totals are raw list lengths, 0.0 when both
mappings are empty. -/
def entitySimilarity (e1 e2 : Entities) : ℚ :=
  if 0 < entityTotal e1 + entityTotal e2 then
    2 * (entityCommonCount e1 e2 : ℚ)
      / ((entityTotal e1 + entityTotal e2 : ℕ) : ℚ)
  else 0

/-- The set of keyword strings of one article: deduplicated, with
whitespace-only strings removed (`if kw.strip()`). -/
def keywordSet (kws : List Keyword) : List String :=
  ((kws.map (fun k => k.keyword)).dedup).filter
    (fun s => decide (pyStrip s ≠ ""))

/-- The `similarity` field of `_compare_keywords`: the Dice coefficient
over the two keyword-string sets. -/
def keywordSimilarity (k1 k2 : List Keyword) : ℚ :=
  if 0 < (keywordSet k1).length + (keywordSet k2).length then
    2 * (((keywordSet k1).filter
        (fun x => decide (x ∈ keywordSet k2))).length : ℚ)
      / (((keywordSet k1).length + (keywordSet k2).length : ℕ) : ℚ)
  else 0

/-! ## Sentiment (`_analyze_sentiment`) -/

/-- A normalised sentiment triple. -/
structure Sentiment where
  positive : ℚ
  neutral : ℚ
  negative : ℚ
deriving DecidableEq, Repr

/-- The positive sentiment lexicon (`sentiment_keywords['positive']`).
There is no entry for `'mixed'`; that lookup raises, see
`analyzeSentiment`. -/
def positiveWords : Language → List String
  | Language.th => ["ดี", "สำเร็จ", "ประสบผลสำเร็จ", "ก้าวหน้า", "พัฒนา",
      "เจริญ", "ยินดี", "ชื่นชม"]
  | Language.en => ["good", "great", "excellent", "successful", "positive",
      "progress", "development", "achievement"]
  | Language.mixed => []

/-- The negative sentiment lexicon. -/
def negativeWords : Language → List String
  | Language.th => ["แย่", "ล้มเหลว", "เสียหาย", "วิกฤต", "ปัญหา",
      "อันตราย", "เสียใจ", "โกรธ"]
  | Language.en => ["bad", "terrible", "failed", "crisis", "problem",
      "danger", "sad", "angry", "negative"]
  | Language.mixed => []

/-- The neutral sentiment lexicon. -/
def neutralWords : Language → List String
  | Language.th => ["ปกติ", "ธรรมดา", "เฉยๆ", "คงที่"]
  | Language.en => ["normal", "ordinary", "neutral", "stable", "unchanged"]
  | Language.mixed => []

/-- Word boundary after a match: end of input or a non-word character. -/
def boundaryAfter : List Char → Bool
  | [] => true
  | d :: _ => !(isWordChar d)

/-- `len(re.findall(r'\b<pat>\b', text))`: the number of positions at
which the pattern occurs delimited by word boundaries.  The flag records
whether the previous character is a word character.  Every sentiment
keyword consists solely of word characters, so two boundary-delimited
occurrences can never overlap (any interior preceding character is a word
character and breaks the left boundary); the positional count therefore
coincides with the non-overlapping left-to-right count of
`re.findall`. -/
def countHitsAux (pat : List Char) : Bool → List Char → Nat
  | _, [] => 0
  | prevW, c :: rest =>
    (if prevW = false ∧ pat ≠ [] ∧ pat.isPrefixOf (c :: rest) = true
        ∧ boundaryAfter ((c :: rest).drop pat.length) = true
     then 1 else 0)
    + countHitsAux pat (isWordChar c) rest

/-- Occurrence count of one keyword in the (lower-cased) content. -/
def countHits (text pat : String) : Nat :=
  countHitsAux pat.toList false text.toList

/-- Total hits of a lexicon in the lower-cased content (keywords are also
lower-cased, as in the source). -/
def sentimentCount (content : String) (kws : List String) : Nat :=
  (kws.map (fun k => countHits
    (String.mk (content.toList.map Char.toLower))
    (String.mk (k.toList.map Char.toLower)))).sum

/-- `total_sentiment_words`: positive + negative + neutral hits. -/
def sentimentTotal (content : String) (lang : Language) : Nat :=
  sentimentCount content (positiveWords lang)
  + sentimentCount content (negativeWords lang)
  + sentimentCount content (neutralWords lang)

/-- `SimilarityAnalyzer._analyze_sentiment`.  Empty content returns the
fixed `{0, 1, 0}` triple before any lexicon lookup; for language
`'mixed'` the lexicon lookup raises `KeyError` (`none`); zero total hits
yield the default `{0.3, 0.4, 0.3}`; otherwise the three counts are
normalised by their sum. -/
def analyzeSentiment (content : String) (lang : Language) : Option Sentiment :=
  if content = "" then some ⟨0, 1, 0⟩
  else if lang = Language.mixed then none
  else if sentimentTotal content lang = 0 then some ⟨3/10, 4/10, 3/10⟩
  else some
    ⟨(sentimentCount content (positiveWords lang) : ℚ)
        / (sentimentTotal content lang : ℚ),
     (sentimentCount content (neutralWords lang) : ℚ)
        / (sentimentTotal content lang : ℚ),
     (sentimentCount content (negativeWords lang) : ℚ)
        / (sentimentTotal content lang : ℚ)⟩

/-- The result of `_analyze_sentiment_comparison`. -/
structure SentimentComparison where
  article1 : Sentiment
  article2 : Sentiment
  dpos : ℚ
  dneu : ℚ
  dneg : ℚ
deriving DecidableEq, Repr

/-- `SimilarityAnalyzer._analyze_sentiment_comparison`; an exception in
either underlying call propagates. -/
def analyzeSentimentComparison (c1 c2 : String) (lang : Language) :
    Option SentimentComparison :=
  match analyzeSentiment c1 lang, analyzeSentiment c2 lang with
  | some s1, some s2 =>
    some ⟨s1, s2, |s1.positive - s2.positive|, |s1.neutral - s2.neutral|,
      |s1.negative - s2.negative|⟩
  | _, _ => none

/-! ## Content differences (`_find_content_differences`) -/

/-- `SimilarityAnalyzer._split_sentences`: split on `[.!?]`, strip, keep
the pieces longer than 10.  (The `'en'` variant splits on `[.!?]+`; the
two differ only in segments that the length filter removes, so one
definition serves both languages.) -/
def splitSentences (content : String) : List String :=
  ((content.toList.splitOnP
      (fun c => decide (c = '.' ∨ c = '!' ∨ c = '?'))).map
    (fun l => pyStrip (String.mk l))).filter
    (fun s => decide (10 < s.length))

/-- One entry of `content_differences`. -/
structure ContentDiff where
  dtype : String
  text : String
  article : Nat
deriving DecidableEq, Repr

/-- `SimilarityAnalyzer._find_content_differences`: sentences of one
article absent from the other, five per side, only sentences whose
stripped length exceeds 30.  Python iterates a `set` in unspecified
order; first-occurrence order is fixed here, and the only verified
property (emptiness on identical contents) does not depend on it. -/
def contentDifferences (c1 c2 : String) : List ContentDiff :=
  let s1 := splitSentences c1
  let s2 := splitSentences c2
  let only1 := (firstDedup s1).filter (fun s => decide (s ∉ s2))
  let only2 := (firstDedup s2).filter (fun s => decide (s ∉ s1))
  ((only1.take 5).filter (fun s => decide (30 < (pyStrip s).length))).map
    (fun s => { dtype := "removed", text := pyStrip s, article := 1 })
  ++ ((only2.take 5).filter (fun s => decide (30 < (pyStrip s).length))).map
    (fun s => { dtype := "added", text := pyStrip s, article := 2 })

/-! ## Overall comparison (`compare_articles`,
`compare_multiple_articles`) -/

/-- `_calculate_overall_similarity`: the 0.5/0.3/0.2 weighting clamped to
`[0, 1]`. -/
noncomputable def overallSimilarity (c e k : ℝ) : ℝ :=
  min (max (c * (5/10) + e * (3/10) + k * (2/10)) 0) 1

/-- The comparison result.  The `comparison_metadata` dictionary and the
common/difference listings inside `entity_comparison` and
`keyword_comparison` are omitted; their `similarity` fields (the only
parts any verified property reads) are kept. -/
structure ComparisonResult where
  similarity_score : ℝ
  content_similarity : ℝ
  entity_similarity : ℚ
  entity_common : Nat
  keyword_similarity : ℚ
  sentiment : SentimentComparison
  content_differences : List ContentDiff

/-- `SimilarityAnalyzer.compare_articles`.  The language driving stop
words and sentiment lexicons is **article 1's** (`article1.get('language',
'th')`).  Only the sentiment step can raise (language `'mixed'` with
non-empty content), which aborts the whole call (`none`). -/
noncomputable def compareArticles (a b : Article) : Option ComparisonResult :=
  match analyzeSentimentComparison a.content b.content a.language with
  | none => none
  | some sc =>
    let cs := contentSimilarity a.content b.content a.language
    let es := entitySimilarity a.entities b.entities
    let ks := keywordSimilarity a.keywords b.keywords
    some
      { similarity_score := overallSimilarity cs (es : ℝ) (ks : ℝ)
        content_similarity := cs
        entity_similarity := es
        entity_common := entityCommonCount a.entities b.entities
        keyword_similarity := ks
        sentiment := sc
        content_differences := contentDifferences a.content b.content }

/-- Point update of a similarity matrix. -/
noncomputable def matUpd (m : Nat → Nat → ℝ) (i j : Nat) (v : ℝ) :
    Nat → Nat → ℝ :=
  fun x y => if x = i ∧ y = j then v else m x y

/-- The index pairs `(i, j)` visited by the nested loops of
`compare_multiple_articles` (`for i in range(n): for j in
range(i+1, n)`), in loop order. -/
def allPairs (n : Nat) : List (Nat × Nat) :=
  (List.range n).flatMap (fun i =>
    (List.range' (i + 1) (n - (i + 1))).map (fun j => (i, j)))

/-- One iteration of the matrix fill loop: writes the pair score at
`(i, j)` and `(j, i)`; a raised comparison aborts the whole call. -/
noncomputable def fillStep (arts : List Article)
    (acc : Option (Nat → Nat → ℝ)) (p : Nat × Nat) :
    Option (Nat → Nat → ℝ) :=
  match acc with
  | none => none
  | some m =>
    match compareArticles (arts.getD p.1 {}) (arts.getD p.2 {}) with
    | none => none
    | some r =>
      some (matUpd (matUpd m p.1 p.2 r.similarity_score)
        p.2 p.1 r.similarity_score)

/-- The `similarity_matrix` fill loop, starting from `np.zeros`. -/
noncomputable def fillMatrix (arts : List Article) :
    Option (Nat → Nat → ℝ) :=
  (allPairs arts.length).foldl (fillStep arts) (some (fun _ _ => 0))

/-- Outcome of `compare_multiple_articles`: the structured error
dictionary for fewer than two articles, or the similarity matrix.  The
`comparisons`/argmax/argmin/distribution fields are not referenced by any
verified property and are omitted. -/
inductive MultiResult where
  | tooFew
  | ok (matrix : Nat → Nat → ℝ)

/-- `SimilarityAnalyzer.compare_multiple_articles`. -/
noncomputable def compareMultiple (arts : List Article) : Option MultiResult :=
  if arts.length < 2 then some MultiResult.tooFew
  else (fillMatrix arts).map MultiResult.ok

/-- The property C10 asserts of a `compare_multiple_articles` outcome: it
succeeded and its similarity matrix has a zero diagonal and is
symmetric. -/
def matrixSymmZeroDiag : Option MultiResult → Prop
  | some (MultiResult.ok m) => (∀ i, m i i = 0) ∧ (∀ i j, m i j = m j i)
  | _ => False

/-- Example article used to witness intensity bounds: no entities, no
keywords, short content, unknown source. -/
def bareArticle : Article :=
  { url := "http://example.com/a", source := "Unknown Site", title := "t",
    content := "x" }

/-- The three articles of Scenario C: dated 2024-01-01, 2024-01-01 and
2024-01-02 via their published dates. -/
def scenArticle1 : Article :=
  { url := "u1", source := "S1", title := "A1",
    published_date := some ⟨⟨2024, 1, 1⟩, 5⟩ }

def scenArticle2 : Article :=
  { url := "u2", source := "S2", title := "A2",
    published_date := some ⟨⟨2024, 1, 1⟩, 9⟩ }

def scenArticle3 : Article :=
  { url := "u3", source := "S3", title := "A3",
    published_date := some ⟨⟨2024, 1, 2⟩, 0⟩ }

def scenarioC : List Article := [scenArticle1, scenArticle2, scenArticle3]

/-- A dated article used to exhibit the `timeline_date` mutation. -/
def mutArticle : Article :=
  { url := "u9", source := "S9", title := "T9", content := "c9",
    published_date := some ⟨⟨2023, 5, 4⟩, 7⟩ }

/-- Concrete duplicate-free entity lists for Dice witnesses. -/
def exEntities : Entities := ⟨["p1"], ["o1", "o2"], [], []⟩

/-- Concrete keyword records for Dice witnesses. -/
def exKeywords : List Keyword := [⟨"economy", 9/10⟩, ⟨"trade", 1/2⟩]

/-- A Thai-language article with non-empty content but no entities and no
keywords: self-comparison scores 0.5, not 1. -/
def plainArticle : Article :=
  { url := "up", source := "SP", title := "TP",
    content := "hello world hello" }

/-- An article with non-empty content, entities and keywords:
self-comparison scores 1. -/
def richArticle : Article :=
  { url := "ur", source := "SR", title := "TR",
    content := "hello world hello", entities := exEntities,
    keywords := exKeywords }

/-- English-tagged article whose content is a single stop word. -/
def stopwordArticleEn : Article :=
  { url := "ue", source := "SE", title := "TE", content := "the",
    language := Language.en }

/-- Thai-tagged article with the same content. -/
def stopwordArticleTh : Article :=
  { url := "ut", source := "ST", title := "TT", content := "the",
    language := Language.th }

/-- Two-article list for the similarity-matrix witness. -/
def pairArts : List Article := [plainArticle, mutArticle]

theorem sourceCredibility_nonneg (s : String) : 0 ≤ sourceCredibility s := by
  unfold sourceCredibility
  repeat' split
  all_goals norm_num

theorem articleScore_nonneg (a : Article) : 0 ≤ articleScore a := by
  unfold articleScore
  have h1 : (0:ℚ) ≤ (entityTotal a.entities : ℚ) * (3/10) := by positivity
  have h2 : (0:ℚ) ≤ (a.keywords.length : ℚ) * (2/10) := by positivity
  have h3 : (0:ℚ) ≤ min ((a.word_count : ℚ) / 1000) 1 * (2/10) := by
    have : (0:ℚ) ≤ min ((a.word_count : ℚ) / 1000) 1 := le_min (by positivity) (by norm_num)
    positivity
  have h4 : (0:ℚ) ≤ sourceCredibility a.source * (3/10) := by
    have := sourceCredibility_nonneg a.source
    positivity
  linarith

/-- C4: the intensity of a non-empty group is `min(2·avg, 10)` where `avg`
averages `0.3·entity_count + 0.2·keyword_count + 0.2·min(word_count/1000, 1)
+ 0.3·source_credibility`, and it always lies in `[0, 10]`. -/
theorem intensity_formula_and_bounds (g : List Article) (h : g ≠ []) :
    eventIntensity g =
      min (2 * ((g.map (fun a =>
        (3/10) * (entityTotal a.entities : ℚ)
        + (2/10) * (a.keywords.length : ℚ)
        + (2/10) * min ((a.word_count : ℚ) / 1000) 1
        + (3/10) * sourceCredibility a.source)).sum / (g.length : ℚ))) 10
    ∧ 0 ≤ eventIntensity g ∧ eventIntensity g ≤ 10 := by
  have hmapeq : g.map (fun a =>
        (3/10) * (entityTotal a.entities : ℚ)
        + (2/10) * (a.keywords.length : ℚ)
        + (2/10) * min ((a.word_count : ℚ) / 1000) 1
        + (3/10) * sourceCredibility a.source) = g.map articleScore := by
    apply List.map_congr_left
    intro a _
    unfold articleScore
    ring
  have hlen : (0:ℚ) < (g.length : ℚ) := by
    have : 0 < g.length := List.length_pos.mpr h
    exact_mod_cast this
  have hsum : (0:ℚ) ≤ (g.map articleScore).sum := by
    apply List.sum_nonneg
    intro x hx
    obtain ⟨a, _, rfl⟩ := List.mem_map.mp hx
    exact articleScore_nonneg a
  have havg : (0:ℚ) ≤ (g.map articleScore).sum / (g.length : ℚ) * 2 := by
    have := div_nonneg hsum (le_of_lt hlen)
    linarith
  refine ⟨?_, ?_, ?_⟩
  · rw [eventIntensity, if_neg h, hmapeq]
    ring_nf
  · rw [eventIntensity, if_neg h]
    exact le_min havg (by norm_num)
  · rw [eventIntensity, if_neg h]
    exact min_le_right _ _

/-- Witness for `intensity_formula_and_bounds` at a one-article group with
zero entities, zero keywords, short content and an unknown source. -/
theorem intensity_formula_and_bounds_witness :
    0 ≤ eventIntensity [bareArticle] ∧ eventIntensity [bareArticle] ≤ 10 :=
  ⟨(intensity_formula_and_bounds [bareArticle] (by simp)).2.1,
   (intensity_formula_and_bounds [bareArticle] (by simp)).2.2⟩

/-- C6: language detection returns `th` exactly when the Thai count exceeds
the Latin count, `en` exactly when Latin exceeds Thai, `mixed` exactly on a
tie; non-empty all-Thai text gives `th`, non-empty all-Latin text gives
`en`. -/
theorem detectLanguage_trichotomy (s : String) :
    (detectLanguage s = Language.th ↔ thaiCharCount s > latinCharCount s)
    ∧ (detectLanguage s = Language.en ↔ latinCharCount s > thaiCharCount s)
    ∧ (detectLanguage s = Language.mixed ↔ thaiCharCount s = latinCharCount s)
    ∧ (s.toList ≠ [] → (∀ c ∈ s.toList, isThaiConsonant c) →
        detectLanguage s = Language.th)
    ∧ (s.toList ≠ [] → (∀ c ∈ s.toList, isLatinLetter c) →
        detectLanguage s = Language.en) := by
  have hdisj : ∀ c : Char, isThaiConsonant c → isLatinLetter c → False := by
    intro c h1 h2
    simp only [isThaiConsonant, Bool.and_eq_true, decide_eq_true_eq] at h1
    simp only [isLatinLetter, Bool.or_eq_true, Bool.and_eq_true,
      decide_eq_true_eq] at h2
    omega
  refine ⟨?_, ?_, ?_, ?_, ?_⟩
  · unfold detectLanguage
    split
    · simp [*]
    · split <;> simp <;> omega
  · unfold detectLanguage
    split
    · simp; omega
    · split <;> simp <;> omega
  · unfold detectLanguage
    split
    · simp; omega
    · split <;> simp <;> omega
  · intro hne hall
    have hl : latinCharCount s = 0 := by
      unfold latinCharCount
      rw [List.length_eq_zero]
      rw [List.filter_eq_nil_iff]
      intro c hc
      intro hlat
      exact hdisj c (hall c hc) hlat
    have ht : 0 < thaiCharCount s := by
      unfold thaiCharCount
      rw [List.length_pos]
      intro hnil
      obtain ⟨c, hc⟩ : ∃ c, c ∈ s.toList := by
        cases h : s.toList with
        | nil => exact absurd h hne
        | cons a l => exact ⟨a, by simp [h]⟩
      have hmem : c ∈ s.toList.filter isThaiConsonant :=
        List.mem_filter.mpr ⟨hc, hall c hc⟩
      rw [hnil] at hmem
      exact absurd hmem (List.not_mem_nil c)
    unfold detectLanguage
    rw [if_pos (by omega)]
  · intro hne hall
    have ht : thaiCharCount s = 0 := by
      unfold thaiCharCount
      rw [List.length_eq_zero]
      rw [List.filter_eq_nil_iff]
      intro c hc
      intro hthai
      exact hdisj c hthai (hall c hc)
    have hl : 0 < latinCharCount s := by
      unfold latinCharCount
      rw [List.length_pos]
      intro hnil
      obtain ⟨c, hc⟩ : ∃ c, c ∈ s.toList := by
        cases h : s.toList with
        | nil => exact absurd h hne
        | cons a l => exact ⟨a, by simp [h]⟩
      have hmem : c ∈ s.toList.filter isLatinLetter :=
        List.mem_filter.mpr ⟨hc, hall c hc⟩
      rw [hnil] at hmem
      exact absurd hmem (List.not_mem_nil c)
    unfold detectLanguage
    rw [if_neg (by omega), if_pos (by omega)]

/-- Witness for `detectLanguage_trichotomy`: all-Thai input yields `th`,
all-Latin input yields `en`. -/
theorem detectLanguage_trichotomy_witness :
    detectLanguage "กขค" = Language.th ∧ detectLanguage "abc" = Language.en :=
  ⟨(detectLanguage_trichotomy "กขค").2.2.2.1 (by decide) (by decide),
   (detectLanguage_trichotomy "abc").2.2.2.2 (by decide) (by decide)⟩

/-! ## Helper lemmas: first-occurrence deduplication -/

theorem firstDedup_sublist {α : Type} [DecidableEq α] :
    ∀ l : List α, List.Sublist (firstDedup l) l
  | [] => List.Sublist.refl []
  | k :: rest => by
    simp only [firstDedup]
    exact List.Sublist.cons₂ k
      ((List.filter_sublist _).trans (firstDedup_sublist rest))

theorem firstDedup_nodup {α : Type} [DecidableEq α] :
    ∀ l : List α, (firstDedup l).Nodup
  | [] => List.nodup_nil
  | k :: rest => by
    simp only [firstDedup]
    refine List.Nodup.cons ?_ ((firstDedup_nodup rest).filter _)
    intro hmem
    have := List.of_mem_filter hmem
    simp at this

theorem mem_firstDedup {α : Type} [DecidableEq α] (a : α) :
    ∀ l : List α, a ∈ firstDedup l ↔ a ∈ l
  | [] => Iff.rfl
  | k :: rest => by
    simp only [firstDedup, List.mem_cons, List.mem_filter, decide_eq_true_eq]
    constructor
    · rintro (rfl | ⟨h, _⟩)
      · exact Or.inl rfl
      · exact Or.inr ((mem_firstDedup a rest).1 h)
    · rintro (rfl | h)
      · exact Or.inl rfl
      · by_cases hk : a = k
        · exact Or.inl hk
        · exact Or.inr ⟨(mem_firstDedup a rest).2 h, hk⟩

/-! ## Helper lemmas: date and datetime orders -/

theorem dtLe_trans (a b c : Datetime) :
    Datetime.Le a b → Datetime.Le b c → Datetime.Le a c := by
  obtain ⟨⟨ay, am, ad⟩, at'⟩ := a
  obtain ⟨⟨by', bm, bd⟩, bt⟩ := b
  obtain ⟨⟨cy, cm, cd⟩, ct⟩ := c
  simp only [Datetime.Le, Date.Lt, Date.mk.injEq]
  omega

theorem dtLe_total (a b : Datetime) : Datetime.Le a b ∨ Datetime.Le b a := by
  obtain ⟨⟨ay, am, ad⟩, at'⟩ := a
  obtain ⟨⟨by', bm, bd⟩, bt⟩ := b
  simp only [Datetime.Le, Date.Lt, Date.mk.injEq]
  omega

theorem dtLe_date_mono (u v : Datetime) :
    Datetime.Le u v → Date.Le u.date v.date := by
  obtain ⟨⟨ay, am, ad⟩, at'⟩ := u
  obtain ⟨⟨by', bm, bd⟩, bt⟩ := v
  simp only [Datetime.Le, Date.Lt, Date.Le, Date.mk.injEq]
  omega

theorem dateLe_ne_lt {a b : Date} (h : Date.Le a b) (hne : a ≠ b) :
    Date.Lt a b := by
  rcases h with h | rfl
  · exact h
  · exact absurd rfl hne

theorem artLeB_trans (a b c : Article) :
    artLeB a b → artLeB b c → artLeB a c := by
  simp only [artLeB, dtLeB, decide_eq_true_eq]
  exact dtLe_trans _ _ _

theorem artLeB_total (a b : Article) : artLeB a b || artLeB b a := by
  simp only [artLeB, dtLeB, Bool.or_eq_true, decide_eq_true_eq]
  exact dtLe_total _ _

/-! ## Helper lemmas: the sorted, grouped timeline -/

theorem filterAndSort_key_pairwise (arts : List Article) :
    ((filterAndSort arts).map articleKey).Pairwise Date.Le := by
  rw [List.pairwise_map]
  refine (List.sorted_mergeSort artLeB_trans artLeB_total
    (arts.filterMap setTimelineDate)).imp ?_
  intro x y h
  simp only [artLeB, dtLeB, decide_eq_true_eq] at h
  exact dtLe_date_mono _ _ h

theorem groupByDate_map_fst (arts : List Article) :
    (groupByDate arts).map Prod.fst = firstDedup (arts.map articleKey) := by
  simp only [groupByDate, List.map_map]
  exact List.map_id' _

theorem groupByDate_keys_pairwise (arts : List Article) :
    ((groupByDate (filterAndSort arts)).map Prod.fst).Pairwise Date.Lt := by
  rw [groupByDate_map_fst]
  have hle : (firstDedup ((filterAndSort arts).map articleKey)).Pairwise Date.Le :=
    (filterAndSort_key_pairwise arts).sublist (firstDedup_sublist _)
  have hne : (firstDedup ((filterAndSort arts).map articleKey)).Pairwise (· ≠ ·) :=
    firstDedup_nodup _
  exact (hle.and hne).imp (fun h => dateLe_ne_lt h.1 h.2)

theorem mem_groupByDate {arts : List Article} {g : Date × List Article}
    (h : g ∈ groupByDate arts) :
    g.2 = arts.filter (fun a => decide (articleKey a = g.1)) := by
  simp only [groupByDate, List.mem_map] at h
  obtain ⟨k, _, rfl⟩ := h
  rfl

theorem mkEvent_enumFrom_map_date :
    ∀ (i : Nat) (gs : List (Date × List Article)),
      ((gs.enumFrom i).map mkEvent).map (fun e => e.date) = gs.map Prod.fst
  | _, [] => rfl
  | i, g :: rest => by
    simp only [List.enumFrom_cons, List.map_cons]
    rw [mkEvent_enumFrom_map_date (i + 1) rest]
    rfl

theorem snd_mem_enumFrom {α : Type} :
    ∀ {i : Nat} {gs : List α} {p : Nat × α}, p ∈ gs.enumFrom i → p.2 ∈ gs := by
  intro i gs
  induction gs generalizing i with
  | nil => intro p h; simp at h
  | cons g rest ih =>
    intro p h
    simp only [List.enumFrom_cons, List.mem_cons] at h
    rcases h with rfl | h
    · exact List.mem_cons_self _ _
    · exact List.mem_cons_of_mem _ (ih h)

theorem mkEvents_map_date (groups : List (Date × List Article)) :
    (mkEvents groups).map (fun e => e.date) = groups.map Prod.fst :=
  mkEvent_enumFrom_map_date 0 groups

theorem mem_mkEvents {groups : List (Date × List Article)} {e : TimelineEvent}
    (h : e ∈ mkEvents groups) :
    ∃ g ∈ groups, e.date = g.1 ∧ e.article_count = g.2.length := by
  simp only [mkEvents, List.mem_map] at h
  obtain ⟨p, hp, rfl⟩ := h
  exact ⟨p.2, snd_mem_enumFrom hp, rfl, rfl⟩

theorem generateTimeline_events (arts : List Article) :
    (generateTimeline arts).events = timelineEvents arts := rfl

/-- C3: timeline events are strictly sorted by ascending date, each event
counts exactly the dated articles of its calendar day, every dated article
is covered by an event of its day; on the three Scenario C articles
(2024-01-01, 2024-01-01, 2024-01-02) the result is exactly two events
with article counts 2 and 1 in ascending date order. -/
theorem timeline_sorted_and_day_merged :
    (∀ arts : List Article,
      ((generateTimeline arts).events.map (fun e => e.date)).Pairwise Date.Lt
      ∧ (∀ e ∈ (generateTimeline arts).events,
          e.article_count = ((filterAndSort arts).filter
            (fun a => decide (articleKey a = e.date))).length)
      ∧ (∀ a ∈ filterAndSort arts,
          ∃ e ∈ (generateTimeline arts).events, e.date = articleKey a))
    ∧ (generateTimeline scenarioC).events.map
        (fun e => (e.date, e.article_count))
      = [(⟨2024, 1, 1⟩, 2), (⟨2024, 1, 2⟩, 1)] := by
  constructor
  · intro arts
    refine ⟨?_, ?_, ?_⟩
    · rw [generateTimeline_events, timelineEvents, mkEvents_map_date]
      exact groupByDate_keys_pairwise arts
    · intro e he
      rw [generateTimeline_events, timelineEvents] at he
      obtain ⟨g, hg, hdate, hcount⟩ := mem_mkEvents he
      rw [hcount, mem_groupByDate hg, hdate]
    · intro a ha
      have hkey : articleKey a ∈ (groupByDate (filterAndSort arts)).map Prod.fst := by
        rw [groupByDate_map_fst, mem_firstDedup]
        exact List.mem_map_of_mem articleKey ha
      rw [← mkEvents_map_date, List.mem_map] at hkey
      obtain ⟨e, he, hdate⟩ := hkey
      exact ⟨e, by rw [generateTimeline_events, timelineEvents]; exact he, hdate⟩
  · have h1 : scenarioC.filterMap setTimelineDate =
        [{ scenArticle1 with timeline_date := some ⟨⟨2024, 1, 1⟩, 5⟩ },
         { scenArticle2 with timeline_date := some ⟨⟨2024, 1, 1⟩, 9⟩ },
         { scenArticle3 with timeline_date := some ⟨⟨2024, 1, 2⟩, 0⟩ }] := rfl
    have h2 : filterAndSort scenarioC =
        [{ scenArticle1 with timeline_date := some ⟨⟨2024, 1, 1⟩, 5⟩ },
         { scenArticle2 with timeline_date := some ⟨⟨2024, 1, 1⟩, 9⟩ },
         { scenArticle3 with timeline_date := some ⟨⟨2024, 1, 2⟩, 0⟩ }] := by
      rw [filterAndSort, h1]
      exact List.mergeSort_of_sorted (by decide)
    rw [generateTimeline_events, timelineEvents, h2]
    rfl

/-! ## C9: the timeline generator mutates its input records -/

theorem filterAndSort_mutArticle :
    filterAndSort [mutArticle] =
      [{ mutArticle with timeline_date := some ⟨⟨2023, 5, 4⟩, 7⟩ }] := by
  rw [filterAndSort,
    show [mutArticle].filterMap setTimelineDate =
      [{ mutArticle with timeline_date := some ⟨⟨2023, 5, 4⟩, 7⟩ }] from rfl]
  exact List.mergeSort_singleton _

/-- C9 counterexample: `_filter_and_sort_articles` writes `timeline_date`
into the input record, so the record that comes back differs from the one
passed in — timeline generation does mutate its input. -/
theorem timeline_mutates_input :
    filterAndSort [mutArticle] =
      [{ mutArticle with timeline_date := some ⟨⟨2023, 5, 4⟩, 7⟩ }]
    ∧ ({ mutArticle with timeline_date := some ⟨⟨2023, 5, 4⟩, 7⟩ } : Article)
        ≠ mutArticle :=
  ⟨filterAndSort_mutArticle, by decide⟩

/-- C9 amended: every record produced by the filter-and-sort step is an
input record with only its `timeline_date` field overwritten (by the
resolved date); every other field is preserved. -/
theorem filterAndSort_frame (arts : List Article) :
    ∀ a' ∈ filterAndSort arts, ∃ a ∈ arts, ∃ d,
      resolveDate a = some d ∧ a' = { a with timeline_date := some d } := by
  intro a' ha'
  rw [filterAndSort, List.mem_mergeSort] at ha'
  obtain ⟨a, ha, hEq⟩ := List.mem_filterMap.mp ha'
  rw [setTimelineDate, Option.map_eq_some'] at hEq
  obtain ⟨d, hd, hEq2⟩ := hEq
  exact ⟨a, ha, d, hd, hEq2.symm⟩

/-- Witness for `filterAndSort_frame` at the concrete article. -/
theorem filterAndSort_frame_witness :
    ∃ a ∈ [mutArticle], ∃ d, resolveDate a = some d ∧
      ({ mutArticle with timeline_date := some ⟨⟨2023, 5, 4⟩, 7⟩ } : Article)
        = { a with timeline_date := some d } :=
  filterAndSort_frame [mutArticle] _
    (by rw [filterAndSort_mutArticle]; exact List.mem_singleton.mpr rfl)

/-! ## C5: date resolution priority and exclusion of dateless articles -/

theorem filterMap_setTimelineDate_filter (arts : List Article) :
    arts.filterMap setTimelineDate =
      (arts.filter (fun a => (resolveDate a).isSome)).filterMap
        setTimelineDate := by
  induction arts with
  | nil => rfl
  | cons a rest ih =>
    cases hd : resolveDate a with
    | some d =>
      simp only [List.filterMap_cons, List.filter_cons, setTimelineDate, hd,
        Option.map_some', Option.isSome_some, if_true, ih]
    | none =>
      simp only [List.filterMap_cons, List.filter_cons, setTimelineDate, hd,
        Option.map_none', Option.isSome_none, Bool.false_eq_true, if_false,
        ih]

/-- C5: the representative date is resolved with priority
`published_date`, then the first content-date, then `scraped_at`; an
article resolving to no date contributes nothing to the timeline events
(generating from the dated subset yields the same events); and
`compare_articles` never reads the three date fields, so a dateless
article remains a valid comparison input. -/
theorem date_priority_and_dateless_exclusion :
    (∀ (a : Article) (d : Datetime),
      a.published_date = some d → resolveDate a = some d)
    ∧ (∀ (a : Article) (cd : ContentDate) (rest : List ContentDate),
        a.published_date = none → a.content_dates = cd :: rest →
        resolveDate a = some cd.parsed_date)
    ∧ (∀ a : Article, a.published_date = none → a.content_dates = [] →
        resolveDate a = a.scraped_at)
    ∧ (∀ arts : List Article,
        (generateTimeline arts).events =
          (generateTimeline
            (arts.filter (fun a => (resolveDate a).isSome))).events)
    ∧ (∀ (a b : Article) (pd sa : Option Datetime) (cds : List ContentDate),
        compareArticles
          { a with
            published_date := pd
            scraped_at := sa
            content_dates := cds } b
        = compareArticles a b) := by
  refine ⟨?_, ?_, ?_, ?_, ?_⟩
  · intro a d h
    rw [resolveDate, h]
  · intro a cd rest h1 h2
    rw [resolveDate, h1, h2]
    rfl
  · intro a h1 h2
    rw [resolveDate, h1, h2]
    rfl
  · intro arts
    rw [generateTimeline_events, generateTimeline_events, timelineEvents,
      timelineEvents, filterAndSort, filterAndSort,
      filterMap_setTimelineDate_filter]
  · intro a b pd sa cds
    rfl

/-- Witness for `date_priority_and_dateless_exclusion`: the three priority
cases at concrete articles. -/
theorem date_priority_witness :
    resolveDate mutArticle = some ⟨⟨2023, 5, 4⟩, 7⟩
    ∧ resolveDate bareArticle = bareArticle.scraped_at :=
  ⟨date_priority_and_dateless_exclusion.1 mutArticle _ rfl,
   date_priority_and_dateless_exclusion.2.2.1 bareArticle rfl rfl⟩

/-! ## C7: Dice coefficients for entities and keywords -/

theorem countCommon_eq (l1 l2 : List String) :
    countCommon l1 l2 = (l1.toFinset ∩ l2.toFinset).card := by
  rw [countCommon]
  have hnd : ((l1.dedup).filter (fun x => decide (x ∈ l2))).Nodup :=
    (List.nodup_dedup l1).filter _
  rw [← List.toFinset_card_of_nodup hnd]
  congr 1
  ext a
  simp [List.mem_filter, List.mem_dedup, Finset.mem_inter]

theorem countCommon_self {l : List String} (h : l.Nodup) :
    countCommon l l = l.length := by
  rw [countCommon_eq, Finset.inter_self, List.toFinset_card_of_nodup h]

theorem keywordSet_nodup (k : List Keyword) : (keywordSet k).Nodup :=
  (List.nodup_dedup _).filter _

theorem filter_mem_length_eq {s1 : List String} (s2 : List String)
    (h : s1.Nodup) :
    (s1.filter (fun x => decide (x ∈ s2))).length
      = (s1.toFinset ∩ s2.toFinset).card := by
  rw [← List.toFinset_card_of_nodup (h.filter _)]
  congr 1
  ext a
  simp [List.mem_filter, Finset.mem_inter]

theorem two_mul_div_add_self {T : ℚ} (h : T ≠ 0) : 2 * T / (T + T) = 1 := by
  rw [div_eq_one_iff_eq (by intro hc; apply h; linarith)]
  ring

theorem entitySimilarity_self {e : Entities}
    (h1 : e.person.Nodup) (h2 : e.organization.Nodup)
    (h3 : e.location.Nodup) (h4 : e.misc.Nodup)
    (hne : entityTotal e ≠ 0) : entitySimilarity e e = 1 := by
  rw [entitySimilarity, if_pos (by omega)]
  have hc2 : (entityCommonCount e e : ℚ) = ((entityTotal e : ℕ) : ℚ) := by
    rw [entityCommonCount, entityTotal, countCommon_self h1,
      countCommon_self h2, countCommon_self h3, countCommon_self h4]
  rw [hc2]
  push_cast
  exact two_mul_div_add_self (by exact_mod_cast hne)

theorem keywordSimilarity_self {k : List Keyword}
    (hne : keywordSet k ≠ []) : keywordSimilarity k k = 1 := by
  rw [keywordSimilarity,
    if_pos (by
      have := List.length_pos.mpr hne
      omega)]
  have hfil : (keywordSet k).filter (fun x => decide (x ∈ keywordSet k))
      = keywordSet k :=
    List.filter_eq_self.mpr (fun a ha => by simpa using ha)
  rw [hfil]
  have hlen : ((keywordSet k).length : ℚ) ≠ 0 := by
    have := List.length_pos.mpr hne
    exact_mod_cast Nat.pos_iff_ne_zero.mp this
  push_cast
  exact two_mul_div_add_self hlen

/-- C7: entity similarity is the Dice coefficient over the per-type entity
sets (2·|common| over the sum of the list lengths), keyword similarity is
the Dice coefficient over the two keyword-string sets; both are 0.0 when
both sides are empty and 1.0 on identical non-empty inputs. -/
theorem dice_entity_keyword_similarity
    (e1 e2 : Entities) (k1 k2 : List Keyword)
    (h1 : e1.person.Nodup) (h2 : e1.organization.Nodup)
    (h3 : e1.location.Nodup) (h4 : e1.misc.Nodup) :
    (entitySimilarity e1 e2 =
      (if entityTotal e1 + entityTotal e2 = 0 then 0
       else 2 * (((e1.person.toFinset ∩ e2.person.toFinset).card
          + (e1.organization.toFinset ∩ e2.organization.toFinset).card
          + (e1.location.toFinset ∩ e2.location.toFinset).card
          + (e1.misc.toFinset ∩ e2.misc.toFinset).card : ℕ) : ℚ)
          / ((entityTotal e1 + entityTotal e2 : ℕ) : ℚ)))
    ∧ (keywordSimilarity k1 k2 =
      (if (keywordSet k1).toFinset.card + (keywordSet k2).toFinset.card = 0
       then 0
       else 2 * (((keywordSet k1).toFinset ∩ (keywordSet k2).toFinset).card : ℚ)
          / (((keywordSet k1).toFinset.card
              + (keywordSet k2).toFinset.card : ℕ) : ℚ)))
    ∧ (entityTotal e1 + entityTotal e2 = 0 → entitySimilarity e1 e2 = 0)
    ∧ (keywordSet k1 = [] → keywordSet k2 = [] → keywordSimilarity k1 k2 = 0)
    ∧ (e1 = e2 → entityTotal e1 ≠ 0 → entitySimilarity e1 e2 = 1)
    ∧ (k1 = k2 → keywordSet k1 ≠ [] → keywordSimilarity k1 k2 = 1) := by
  have hcc : (entityCommonCount e1 e2 : ℚ)
      = (((e1.person.toFinset ∩ e2.person.toFinset).card
        + (e1.organization.toFinset ∩ e2.organization.toFinset).card
        + (e1.location.toFinset ∩ e2.location.toFinset).card
        + (e1.misc.toFinset ∩ e2.misc.toFinset).card : ℕ) : ℚ) := by
    rw [entityCommonCount, countCommon_eq, countCommon_eq, countCommon_eq,
      countCommon_eq]
  refine ⟨?_, ?_, ?_, ?_, ?_, ?_⟩
  · rcases Nat.eq_zero_or_pos (entityTotal e1 + entityTotal e2) with hz | hp
    · simp [entitySimilarity, hz]
    · rw [entitySimilarity, if_pos hp, if_neg (by omega), ← hcc]
  · rcases Nat.eq_zero_or_pos
        ((keywordSet k1).length + (keywordSet k2).length) with hz | hp
    · have z1 : keywordSet k1 = [] := by
        have := List.length_eq_zero.mp (by omega : (keywordSet k1).length = 0)
        exact this
      have z2 : keywordSet k2 = [] := by
        have := List.length_eq_zero.mp (by omega : (keywordSet k2).length = 0)
        exact this
      simp [keywordSimilarity, z1, z2]
    · rw [keywordSimilarity, if_pos hp,
        if_neg (by
          rw [List.toFinset_card_of_nodup (keywordSet_nodup k1),
            List.toFinset_card_of_nodup (keywordSet_nodup k2)]
          omega),
        filter_mem_length_eq _ (keywordSet_nodup k1),
        List.toFinset_card_of_nodup (keywordSet_nodup k1),
        List.toFinset_card_of_nodup (keywordSet_nodup k2)]
  · intro hz
    simp [entitySimilarity, hz]
  · intro z1 z2
    simp [keywordSimilarity, z1, z2]
  · rintro rfl hne
    exact entitySimilarity_self h1 h2 h3 h4 hne
  · rintro rfl hne
    exact keywordSimilarity_self hne

/-- Witness for `dice_entity_keyword_similarity`: identical non-empty
entity/keyword inputs score 1.0. -/
theorem dice_entity_keyword_similarity_witness :
    entitySimilarity exEntities exEntities = 1
    ∧ keywordSimilarity exKeywords exKeywords = 1 :=
  ⟨(dice_entity_keyword_similarity exEntities exEntities exKeywords exKeywords
      (by decide) (by decide) (by decide) (by decide)).2.2.2.2.1 rfl
      (by decide),
   (dice_entity_keyword_similarity exEntities exEntities exKeywords exKeywords
      (by decide) (by decide) (by decide) (by decide)).2.2.2.2.2 rfl
      (by decide)⟩

/-! ## C8: sentiment normalisation and defaults -/

/-- C8 counterexample: empty content has zero sentiment-keyword hits yet
receives `{0, 1, 0}`, not the `{0.3, 0.4, 0.3}` default. -/
theorem sentiment_empty_content_not_default :
    analyzeSentiment "" Language.th = some ⟨0, 1, 0⟩
    ∧ sentimentTotal "" Language.th = 0
    ∧ (⟨0, 1, 0⟩ : Sentiment) ≠ ⟨3/10, 4/10, 3/10⟩ :=
  ⟨rfl, by decide, by
    intro hEq
    have := congrArg Sentiment.positive hEq
    norm_num at this⟩

/-- C8 amended: whenever `_analyze_sentiment` returns, the three buckets
sum to 1; **non-empty** content with zero sentiment-keyword hits receives
exactly `{0.3, 0.4, 0.3}`, while empty content receives `{0, 1, 0}`. -/
theorem sentiment_sums_and_defaults (content : String) (lang : Language)
    (r : Sentiment) (h : analyzeSentiment content lang = some r) :
    r.positive + r.neutral + r.negative = 1
    ∧ (content ≠ "" → sentimentTotal content lang = 0 →
        r = ⟨3/10, 4/10, 3/10⟩)
    ∧ (content = "" → r = ⟨0, 1, 0⟩) := by
  by_cases hc : content = ""
  · rw [analyzeSentiment, if_pos hc] at h
    obtain rfl : (⟨0, 1, 0⟩ : Sentiment) = r := Option.some.inj h
    exact ⟨by norm_num, fun hne => absurd hc hne, fun _ => rfl⟩
  · rw [analyzeSentiment, if_neg hc] at h
    by_cases hm : lang = Language.mixed
    · rw [if_pos hm] at h
      exact absurd h (by simp)
    · rw [if_neg hm] at h
      by_cases ht : sentimentTotal content lang = 0
      · rw [if_pos ht] at h
        obtain rfl : (⟨3/10, 4/10, 3/10⟩ : Sentiment) = r := Option.some.inj h
        exact ⟨by norm_num, fun _ _ => rfl, fun he => absurd he hc⟩
      · rw [if_neg ht] at h
        obtain rfl := (Option.some.inj h).symm
        refine ⟨?_, fun _ hz => absurd hz ht, fun he => absurd he hc⟩
        have htQ : ((sentimentTotal content lang : ℕ) : ℚ) ≠ 0 := by
          exact_mod_cast ht
        show (sentimentCount content (positiveWords lang) : ℚ)
              / (sentimentTotal content lang : ℚ)
            + (sentimentCount content (neutralWords lang) : ℚ)
              / (sentimentTotal content lang : ℚ)
            + (sentimentCount content (negativeWords lang) : ℚ)
              / (sentimentTotal content lang : ℚ) = 1
        rw [div_add_div_same, div_add_div_same, div_eq_one_iff_eq htQ,
          sentimentTotal]
        push_cast
        ring

/-- Witness for `sentiment_sums_and_defaults`: concrete non-empty content
with no sentiment-keyword hit gets the `{0.3, 0.4, 0.3}` default, which
sums to 1. -/
theorem sentiment_zero_hits_default :
    analyzeSentiment "zzz" Language.en = some ⟨3/10, 4/10, 3/10⟩ := by
  rw [analyzeSentiment, if_neg (by decide), if_neg (by decide),
    if_pos (by decide)]

/-- Witness for `sentiment_sums_and_defaults`: concrete non-empty content
with no sentiment-keyword hit gets the `{0.3, 0.4, 0.3}` default, which
sums to 1. -/
theorem sentiment_sums_and_defaults_witness :
    ((3 : ℚ)/10) + 4/10 + 3/10 = 1
    ∧ (⟨3/10, 4/10, 3/10⟩ : Sentiment) = ⟨3/10, 4/10, 3/10⟩ :=
  ⟨(sentiment_sums_and_defaults "zzz" Language.en ⟨3/10, 4/10, 3/10⟩
      sentiment_zero_hits_default).1,
   (sentiment_sums_and_defaults "zzz" Language.en ⟨3/10, 4/10, 3/10⟩
      sentiment_zero_hits_default).2.1 (by decide) (by decide)⟩

/-! ## Helper lemmas: dot products and cosine similarity -/

theorem dotR_cons (a b : ℝ) (u v : List ℝ) :
    dotR (a :: u) (b :: v) = a * b + dotR u v := by
  simp [dotR]

theorem dotR_self_nonneg (v : List ℝ) : 0 ≤ dotR v v := by
  rw [dotR, List.zipWith_same]
  apply List.sum_nonneg
  intro x hx
  obtain ⟨a, _, rfl⟩ := List.mem_map.mp hx
  exact mul_self_nonneg a

theorem dotR_self_pos : ∀ {v : List ℝ}, (∃ x ∈ v, x ≠ 0) → 0 < dotR v v := by
  intro v
  induction v with
  | nil =>
    rintro ⟨x, hx, -⟩
    exact absurd hx (List.not_mem_nil x)
  | cons a rest ih =>
    rintro ⟨x, hx, hxne⟩
    rw [dotR_cons]
    rcases List.mem_cons.mp hx with rfl | hx2
    · have hp : 0 < x * x := mul_self_pos.mpr hxne
      have hr : 0 ≤ dotR rest rest := dotR_self_nonneg rest
      linarith
    · have hp : 0 < dotR rest rest := ih ⟨x, hx2, hxne⟩
      have ha : 0 ≤ a * a := mul_self_nonneg a
      linarith

theorem dotR_comm (u v : List ℝ) : dotR u v = dotR v u := by
  rw [dotR, dotR, List.zipWith_comm_of_comm _ mul_comm]

theorem cosineSim_comm (u v : List ℝ) : cosineSim u v = cosineSim v u := by
  rw [cosineSim, cosineSim, dotR_comm u v]
  by_cases h : dotR u u = 0 ∨ dotR v v = 0
  · rw [if_pos h, if_pos (Or.symm h)]
  · rw [if_neg h, if_neg (fun hh => h (Or.symm hh)), mul_comm]

theorem cosineSim_self {v : List ℝ} (h : 0 < dotR v v) : cosineSim v v = 1 := by
  rw [cosineSim,
    if_neg (by rintro (h1 | h1) <;> exact absurd h1 (ne_of_gt h)),
    Real.mul_self_sqrt (le_of_lt h), div_self (ne_of_gt h)]

/-! ## Helper lemmas: idf, document frequency and vocabulary -/

theorem idf_pos {df : Nat} (h : df ≤ 2) : 0 < idf df := by
  rw [idf]
  have hd : (0 : ℝ) < 1 + (df : ℝ) := by positivity
  have h1 : (1 : ℝ) ≤ (1 + 2) / (1 + (df : ℝ)) := by
    rw [le_div_iff₀ hd]
    have : (df : ℝ) ≤ 2 := by exact_mod_cast h
    linarith
  have := Real.log_nonneg h1
  linarith

theorem dfOf_le_two (t1 t2 : List String) (t : String) : dfOf t1 t2 t ≤ 2 := by
  rw [dfOf]
  split <;> split <;> omega

theorem dfOf_comm (t1 t2 : List String) (t : String) :
    dfOf t1 t2 t = dfOf t2 t1 t := by
  rw [dfOf, dfOf, Nat.add_comm]

theorem char_toNat_inj {a b : Char} (h : a.toNat = b.toNat) : a = b :=
  Char.eq_of_val_eq (UInt32.toNat.inj h)

theorem listLeB_total : ∀ x y : List Char,
    listLeB x y = true ∨ listLeB y x = true
  | [], _ => Or.inl rfl
  | _ :: _, [] => Or.inr rfl
  | a :: as, b :: bs => by
    rcases Nat.lt_trichotomy a.toNat b.toNat with h | h | h
    · left
      simp only [listLeB]
      rw [if_pos h]
    · simp only [listLeB, h, Nat.lt_irrefl, if_false]
      exact listLeB_total as bs
    · right
      simp only [listLeB]
      rw [if_pos h]

theorem listLeB_trans : ∀ x y z : List Char,
    listLeB x y = true → listLeB y z = true → listLeB x z = true
  | [], _, _ => fun _ _ => rfl
  | _ :: _, [], _ => fun h _ => by simp [listLeB] at h
  | _ :: _, _ :: _, [] => fun _ h => by simp [listLeB] at h
  | a :: as, b :: bs, c :: cs => fun h1 h2 => by
    simp only [listLeB] at h1 h2 ⊢
    by_cases hab : a.toNat < b.toNat
    · by_cases hbc : b.toNat < c.toNat
      · rw [if_pos (by omega)]
      · by_cases hcb : c.toNat < b.toNat
        · rw [if_neg hbc, if_pos hcb] at h2
          exact absurd h2 (by simp)
        · rw [if_pos (by omega)]
    · by_cases hba : b.toNat < a.toNat
      · rw [if_neg hab, if_pos hba] at h1
        exact absurd h1 (by simp)
      · rw [if_neg hab, if_neg hba] at h1
        by_cases hbc : b.toNat < c.toNat
        · rw [if_pos (by omega)]
        · by_cases hcb : c.toNat < b.toNat
          · rw [if_neg hbc, if_pos hcb] at h2
            exact absurd h2 (by simp)
          · rw [if_neg hbc, if_neg hcb] at h2
            rw [if_neg (by omega), if_neg (by omega)]
            exact listLeB_trans as bs cs h1 h2

theorem listLeB_antisymm : ∀ x y : List Char,
    listLeB x y = true → listLeB y x = true → x = y
  | [], [] => fun _ _ => rfl
  | [], _ :: _ => fun _ h2 => by simp [listLeB] at h2
  | _ :: _, [] => fun h1 _ => by simp [listLeB] at h1
  | a :: as, b :: bs => fun h1 h2 => by
    simp only [listLeB] at h1 h2
    by_cases hab : a.toNat < b.toNat
    · rw [if_neg (by omega), if_pos (by omega)] at h2
      exact absurd h2 (by simp)
    · by_cases hba : b.toNat < a.toNat
      · rw [if_neg hab, if_pos hba] at h1
        exact absurd h1 (by simp)
      · rw [if_neg hab, if_neg hba] at h1
        rw [if_neg hba, if_neg hab] at h2
        have hhead : a = b := char_toNat_inj (by omega)
        rw [hhead, listLeB_antisymm as bs h1 h2]

theorem strLeB_trans (a b c : String) :
    strLeB a b = true → strLeB b c = true → strLeB a c = true :=
  listLeB_trans a.data b.data c.data

theorem strLeB_total (a b : String) : (strLeB a b || strLeB b a) = true := by
  rcases listLeB_total a.data b.data with h | h
  · simp [strLeB, h]
  · simp [strLeB, h]

theorem strLeB_antisymm (a b : String) (h1 : strLeB a b = true)
    (h2 : strLeB b a = true) : a = b := by
  have hd := listLeB_antisymm a.data b.data h1 h2
  cases a
  cases b
  exact congrArg String.mk hd

instance : IsAntisymm String (fun a b => strLeB a b = true) :=
  ⟨strLeB_antisymm⟩

instance : IsTotal String (fun a b => strLeB a b = true) :=
  ⟨fun a b => by
    rcases listLeB_total a.data b.data with h | h
    · exact Or.inl h
    · exact Or.inr h⟩

instance : IsTrans String (fun a b => strLeB a b = true) :=
  ⟨strLeB_trans⟩

theorem sortStr_sorted (l : List String) :
    (sortStr l).Pairwise (fun a b => strLeB a b = true) :=
  List.sorted_mergeSort strLeB_trans strLeB_total l

theorem sortStr_perm (l : List String) : List.Perm (sortStr l) l :=
  List.mergeSort_perm l _

theorem sortStr_eq_of_perm {l1 l2 : List String} (h : List.Perm l1 l2) :
    sortStr l1 = sortStr l2 :=
  @List.eq_of_perm_of_sorted String (fun a b => strLeB a b = true)
    inferInstance _ _
    ((sortStr_perm l1).trans (h.trans (sortStr_perm l2).symm))
    (sortStr_sorted l1) (sortStr_sorted l2)

theorem sortStr_eq_insertionSort (l : List String) :
    sortStr l = l.insertionSort (fun a b => strLeB a b = true) := by
  have h := List.mergeSort_eq_insertionSort (fun a b => strLeB a b = true) l
  rw [sortStr, ← h]
  congr 1
  funext a b
  simp

theorem mem_buildVocab {t1 t2 : List String} {s : String}
    (h : s ∈ buildVocab t1 t2) : s ∈ t1 ∨ s ∈ t2 := by
  simp only [buildVocab] at h
  by_cases hlen : (sortStr ((t1 ++ t2).dedup)).length ≤ 1000
  · rw [if_pos hlen] at h
    rw [sortStr, List.mem_mergeSort, List.mem_dedup, List.mem_append] at h
    exact h
  · rw [if_neg hlen] at h
    have h2 := (List.mem_filter.mp h).1
    rw [sortStr, List.mem_mergeSort, List.mem_dedup, List.mem_append] at h2
    exact h2

theorem buildVocab_comm (t1 t2 : List String) :
    buildVocab t1 t2 = buildVocab t2 t1 := by
  have hall : sortStr ((t1 ++ t2).dedup) = sortStr ((t2 ++ t1).dedup) :=
    sortStr_eq_of_perm (List.perm_append_comm.dedup)
  have hcnt : (fun t : String => (t, (t1 ++ t2).count t))
      = (fun t : String => (t, (t2 ++ t1).count t)) := by
    funext t
    rw [List.count_append, List.count_append, Nat.add_comm]
  simp only [buildVocab, hall, hcnt]

theorem tfidfVec_df_comm (terms t1 t2 vocab : List String) :
    tfidfVec terms t1 t2 vocab = tfidfVec terms t2 t1 vocab := by
  rw [tfidfVec, tfidfVec]
  apply List.map_congr_left
  intro t _
  rw [dfOf_comm]

theorem corpusCosine_comm (t1 t2 : List String) :
    corpusCosine t1 t2 = corpusCosine t2 t1 := by
  rw [corpusCosine, corpusCosine, buildVocab_comm t2 t1,
    tfidfVec_df_comm t2 t2 t1, tfidfVec_df_comm t1 t2 t1, cosineSim_comm]

theorem corpusCosine_self {t : List String} (h : buildVocab t t ≠ []) :
    corpusCosine t t = 1 := by
  rw [corpusCosine, if_neg h]
  obtain ⟨s0, rest, hv⟩ : ∃ s0 rest, buildVocab t t = s0 :: rest := by
    cases hvv : buildVocab t t with
    | nil => exact absurd hvv h
    | cons a l => exact ⟨a, l, rfl⟩
  have hs0 : s0 ∈ buildVocab t t := by
    rw [hv]
    exact List.mem_cons_self _ _
  have hs0t : s0 ∈ t := by
    rcases mem_buildVocab hs0 with h' | h' <;> exact h'
  have hcount : 0 < t.count s0 := List.count_pos_iff.mpr hs0t
  have hidf : 0 < idf (dfOf t t s0) := idf_pos (dfOf_le_two t t s0)
  have hfne : ((t.count s0 : ℝ) * idf (dfOf t t s0)) ≠ 0 :=
    ne_of_gt (mul_pos (by exact_mod_cast hcount) hidf)
  have hmem : ((t.count s0 : ℝ) * idf (dfOf t t s0))
      ∈ tfidfVec t t t (buildVocab t t) := by
    rw [tfidfVec]
    exact List.mem_map_of_mem _ hs0
  exact cosineSim_self (dotR_self_pos ⟨_, hmem, hfne⟩)

theorem contentSimilarity_self (c : String) (lang : Language)
    (hc : c ≠ "") (hp : preprocess c ≠ "")
    (hv : buildVocab (docTerms (preprocess c) (isEnglishFlag lang))
        (docTerms (preprocess c) (isEnglishFlag lang)) ≠ []) :
    contentSimilarity c c lang = 1 := by
  rw [contentSimilarity, if_neg (by rintro (h | h) <;> exact hc h),
    if_neg (by rintro (h | h) <;> exact hp h)]
  exact corpusCosine_self hv

theorem contentSimilarity_comm (c1 c2 : String) (lang : Language) :
    contentSimilarity c1 c2 lang = contentSimilarity c2 c1 lang := by
  rw [contentSimilarity, contentSimilarity]
  by_cases h1 : c1 = "" ∨ c2 = ""
  · rw [if_pos h1, if_pos (Or.symm h1)]
  · rw [if_neg h1, if_neg (fun hh => h1 (Or.symm hh))]
    by_cases h2 : preprocess c1 = "" ∨ preprocess c2 = ""
    · rw [if_pos h2, if_pos (Or.symm h2)]
    · rw [if_neg h2, if_neg (fun hh => h2 (Or.symm hh))]
      exact corpusCosine_comm _ _

/-! ## Helper lemmas: symmetry of the Dice similarities -/

theorem countCommon_comm (l1 l2 : List String) :
    countCommon l1 l2 = countCommon l2 l1 := by
  rw [countCommon_eq, countCommon_eq, Finset.inter_comm]

theorem entitySimilarity_comm (e1 e2 : Entities) :
    entitySimilarity e1 e2 = entitySimilarity e2 e1 := by
  rw [entitySimilarity, entitySimilarity, Nat.add_comm (entityTotal e2),
    show entityCommonCount e1 e2 = entityCommonCount e2 e1 from by
      rw [entityCommonCount, entityCommonCount,
        countCommon_comm e1.person e2.person,
        countCommon_comm e1.organization e2.organization,
        countCommon_comm e1.location e2.location,
        countCommon_comm e1.misc e2.misc]]

theorem keywordSimilarity_comm (k1 k2 : List Keyword) :
    keywordSimilarity k1 k2 = keywordSimilarity k2 k1 := by
  rw [keywordSimilarity, keywordSimilarity,
    Nat.add_comm ((keywordSet k2).length),
    show ((keywordSet k1).filter
        (fun x => decide (x ∈ keywordSet k2))).length
      = ((keywordSet k2).filter
        (fun x => decide (x ∈ keywordSet k1))).length from by
      rw [filter_mem_length_eq _ (keywordSet_nodup k1),
        filter_mem_length_eq _ (keywordSet_nodup k2), Finset.inter_comm]]

/-! ## Helper lemmas: the comparison pipeline -/

theorem analyzeSentiment_isSome (c : String) (lang : Language)
    (hm : lang ≠ Language.mixed) : ∃ s, analyzeSentiment c lang = some s := by
  rw [analyzeSentiment]
  by_cases hc : c = ""
  · rw [if_pos hc]
    exact ⟨_, rfl⟩
  · rw [if_neg hc, if_neg hm]
    by_cases ht : sentimentTotal c lang = 0
    · rw [if_pos ht]
      exact ⟨_, rfl⟩
    · rw [if_neg ht]
      exact ⟨_, rfl⟩

theorem asc_eq (c1 c2 : String) (lang : Language) {s1 s2 : Sentiment}
    (h1 : analyzeSentiment c1 lang = some s1)
    (h2 : analyzeSentiment c2 lang = some s2) :
    analyzeSentimentComparison c1 c2 lang =
      some ⟨s1, s2, |s1.positive - s2.positive|, |s1.neutral - s2.neutral|,
        |s1.negative - s2.negative|⟩ := by
  simp only [analyzeSentimentComparison, h1, h2]

theorem asc_isSome (c1 c2 : String) (lang : Language)
    (hm : lang ≠ Language.mixed) :
    ∃ sc, analyzeSentimentComparison c1 c2 lang = some sc := by
  obtain ⟨s1, h1⟩ := analyzeSentiment_isSome c1 lang hm
  obtain ⟨s2, h2⟩ := analyzeSentiment_isSome c2 lang hm
  exact ⟨_, asc_eq c1 c2 lang h1 h2⟩

theorem asc_none_symm {c1 c2 : String} {lang : Language}
    (h : analyzeSentimentComparison c1 c2 lang = none) :
    analyzeSentimentComparison c2 c1 lang = none := by
  cases ha : analyzeSentiment c2 lang with
  | none => simp [analyzeSentimentComparison, ha]
  | some s2 =>
    cases hb : analyzeSentiment c1 lang with
    | none => simp [analyzeSentimentComparison, ha, hb]
    | some s1 =>
      rw [asc_eq c1 c2 lang hb ha] at h
      exact absurd h (by simp)

theorem compareArticles_eq (a b : Article) {sc : SentimentComparison}
    (h : analyzeSentimentComparison a.content b.content a.language = some sc) :
    compareArticles a b = some
      { similarity_score := overallSimilarity
          (contentSimilarity a.content b.content a.language)
          ((entitySimilarity a.entities b.entities : ℚ) : ℝ)
          ((keywordSimilarity a.keywords b.keywords : ℚ) : ℝ)
        content_similarity := contentSimilarity a.content b.content a.language
        entity_similarity := entitySimilarity a.entities b.entities
        entity_common := entityCommonCount a.entities b.entities
        keyword_similarity := keywordSimilarity a.keywords b.keywords
        sentiment := sc
        content_differences := contentDifferences a.content b.content } := by
  simp only [compareArticles, h]

theorem compareArticles_none (a b : Article)
    (h : analyzeSentimentComparison a.content b.content a.language = none) :
    compareArticles a b = none := by
  simp only [compareArticles, h]

theorem compareArticles_isSome (a b : Article)
    (hm : a.language ≠ Language.mixed) :
    ∃ r, compareArticles a b = some r := by
  obtain ⟨sc, hsc⟩ := asc_isSome a.content b.content a.language hm
  exact ⟨_, compareArticles_eq a b hsc⟩

theorem overallSimilarity_nonneg (c e k : ℝ) : 0 ≤ overallSimilarity c e k :=
  le_min (le_max_right _ _) zero_le_one

theorem overallSimilarity_le_one (c e k : ℝ) : overallSimilarity c e k ≤ 1 :=
  min_le_right _ _

theorem overallSimilarity_111 : overallSimilarity 1 1 1 = 1 := by
  rw [overallSimilarity,
    show (1 : ℝ) * (5/10) + 1 * (3/10) + 1 * (2/10) = 1 from by norm_num,
    max_eq_left (by norm_num : (0:ℝ) ≤ 1), min_self]

theorem overallSimilarity_100 : overallSimilarity 1 0 0 = 1/2 := by
  rw [overallSimilarity,
    show (1 : ℝ) * (5/10) + 0 * (3/10) + 0 * (2/10) = 1/2 from by norm_num,
    max_eq_left (by norm_num : (0:ℝ) ≤ 1/2),
    min_eq_left (by norm_num : (1:ℝ)/2 ≤ 1)]

theorem overallSimilarity_000 : overallSimilarity 0 0 0 = 0 := by
  rw [overallSimilarity,
    show (0 : ℝ) * (5/10) + 0 * (3/10) + 0 * (2/10) = 0 from by norm_num,
    max_self, min_eq_left (by norm_num : (0:ℝ) ≤ 1)]

theorem contentDifferences_self (c : String) :
    contentDifferences c c = [] := by
  rw [contentDifferences]
  have honly : (firstDedup (splitSentences c)).filter
      (fun s => decide (s ∉ splitSentences c)) = [] := by
    rw [List.filter_eq_nil_iff]
    intro s hsmem
    have hsin : s ∈ splitSentences c := (mem_firstDedup s _).mp hsmem
    simp [hsin]
  rw [honly]
  rfl

/-! ## C1: self-comparison -/

theorem hello_vocab_ne_nil :
    buildVocab
      (docTerms (preprocess "hello world hello") (isEnglishFlag Language.th))
      (docTerms (preprocess "hello world hello") (isEnglishFlag Language.th))
      ≠ [] := by
  rw [show docTerms (preprocess "hello world hello")
      (isEnglishFlag Language.th)
    = ["hello", "world", "hello", "hello world", "world hello"] from by
      decide]
  simp only [buildVocab, sortStr_eq_insertionSort]
  rw [if_pos (by decide)]
  decide

theorem sentiment_hello_th :
    analyzeSentiment "hello world hello" Language.th
      = some ⟨3/10, 4/10, 3/10⟩ := by
  rw [analyzeSentiment, if_neg (by decide), if_neg (by decide),
    if_pos (by decide)]

/-- C1 counterexample: comparing an article (non-empty, byte-identical
content on both sides) with itself scores 0.5, not ≈ 1.0 and not ≥ 0.95,
because its entity and keyword sets are empty and those carry 0.3 + 0.2
of the weight. -/
theorem compare_self_not_high :
    Option.map ComparisonResult.similarity_score
      (compareArticles plainArticle plainArticle) = some (1/2)
    ∧ ¬(95/100 ≤ ((1:ℝ)/2)) ∧ ((1:ℝ)/2 ≠ 1) := by
  refine ⟨?_, by norm_num, by norm_num⟩
  have hs : analyzeSentiment plainArticle.content plainArticle.language
      = some ⟨3/10, 4/10, 3/10⟩ := sentiment_hello_th
  rw [compareArticles_eq plainArticle plainArticle (asc_eq _ _ _ hs hs)]
  simp only [Option.map_some']
  refine congrArg some ?_
  show overallSimilarity
      (contentSimilarity "hello world hello" "hello world hello" Language.th)
      ((entitySimilarity ⟨[], [], [], []⟩ ⟨[], [], [], []⟩ : ℚ) : ℝ)
      ((keywordSimilarity [] [] : ℚ) : ℝ) = 1/2
  rw [contentSimilarity_self _ _ (by decide) (by decide) hello_vocab_ne_nil,
    show entitySimilarity ⟨[], [], [], []⟩ ⟨[], [], [], []⟩ = 0 from by
      simp [entitySimilarity, entityTotal],
    show keywordSimilarity [] [] = 0 from by
      simp [keywordSimilarity, keywordSet]]
  push_cast
  exact overallSimilarity_100

/-- C1 amended: on a self-comparison with non-mixed language, non-empty
vectorizable content, duplicate-free non-empty entities and non-empty
keywords, content similarity is exactly 1, the overall score is exactly 1
and the content differences are empty.  (Without the entity/keyword
conditions the score drops to 0.5 — see the counterexample.) -/
theorem compare_self_perfect (a : Article)
    (hm : a.language ≠ Language.mixed)
    (hc : a.content ≠ "") (hp : preprocess a.content ≠ "")
    (hv : buildVocab
        (docTerms (preprocess a.content) (isEnglishFlag a.language))
        (docTerms (preprocess a.content) (isEnglishFlag a.language)) ≠ [])
    (h1 : a.entities.person.Nodup) (h2 : a.entities.organization.Nodup)
    (h3 : a.entities.location.Nodup) (h4 : a.entities.misc.Nodup)
    (he : entityTotal a.entities ≠ 0)
    (hk : keywordSet a.keywords ≠ []) :
    Option.map ComparisonResult.content_similarity (compareArticles a a)
      = some 1
    ∧ Option.map ComparisonResult.similarity_score (compareArticles a a)
      = some 1
    ∧ Option.map ComparisonResult.content_differences (compareArticles a a)
      = some [] := by
  obtain ⟨s, hs⟩ := analyzeSentiment_isSome a.content a.language hm
  rw [compareArticles_eq a a (asc_eq _ _ _ hs hs)]
  have hcs := contentSimilarity_self a.content a.language hc hp hv
  refine ⟨?_, ?_, ?_⟩
  · simp only [Option.map_some']
    exact congrArg some hcs
  · simp only [Option.map_some']
    refine congrArg some ?_
    show overallSimilarity (contentSimilarity a.content a.content a.language)
      ((entitySimilarity a.entities a.entities : ℚ) : ℝ)
      ((keywordSimilarity a.keywords a.keywords : ℚ) : ℝ) = 1
    rw [hcs, entitySimilarity_self h1 h2 h3 h4 he, keywordSimilarity_self hk]
    push_cast
    exact overallSimilarity_111
  · simp only [Option.map_some']
    exact congrArg some (contentDifferences_self a.content)

/-- Witness for `compare_self_perfect` at a concrete article with
content, entities and keywords. -/
theorem compare_self_perfect_witness :
    Option.map ComparisonResult.content_similarity
      (compareArticles richArticle richArticle) = some 1
    ∧ Option.map ComparisonResult.similarity_score
      (compareArticles richArticle richArticle) = some 1
    ∧ Option.map ComparisonResult.content_differences
      (compareArticles richArticle richArticle) = some [] :=
  compare_self_perfect richArticle (by decide) (by decide) (by decide)
    hello_vocab_ne_nil (by decide) (by decide) (by decide) (by decide)
    (by decide) (by decide)

/-! ## C2: symmetry and bounds -/

/-- C2 amended: the overall score is symmetric whenever the two articles
carry the same language tag (the code keys stop words and sentiment off
**article 1's** language, so equal tags make the two directions run the
same computation); whenever a comparison returns, its score lies in
`[0, 1]`.  Symmetry fails across languages — see the counterexample. -/
theorem similarity_symmetric_and_bounded :
    (∀ a b : Article, a.language = b.language →
      Option.map ComparisonResult.similarity_score (compareArticles a b)
        = Option.map ComparisonResult.similarity_score (compareArticles b a))
    ∧ (∀ (a b : Article) (r : ComparisonResult),
        compareArticles a b = some r →
        0 ≤ r.similarity_score ∧ r.similarity_score ≤ 1) := by
  constructor
  · intro a b hl
    cases h1 : analyzeSentimentComparison a.content b.content a.language with
    | none =>
      have h2 : analyzeSentimentComparison b.content a.content b.language
          = none := by
        rw [← hl]
        exact asc_none_symm h1
      rw [compareArticles_none a b h1, compareArticles_none b a h2]
    | some sc =>
      cases hs1 : analyzeSentiment a.content a.language with
      | none => rw [analyzeSentimentComparison, hs1] at h1; exact absurd h1 (by simp)
      | some s1 =>
        cases hs2 : analyzeSentiment b.content a.language with
        | none =>
          rw [analyzeSentimentComparison, hs1, hs2] at h1
          exact absurd h1 (by simp)
        | some s2 =>
          have h2 : analyzeSentimentComparison b.content a.content b.language
              = some ⟨s2, s1, |s2.positive - s1.positive|,
                |s2.neutral - s1.neutral|, |s2.negative - s1.negative|⟩ := by
            rw [← hl]
            exact asc_eq b.content a.content a.language hs2 hs1
          rw [compareArticles_eq a b h1, compareArticles_eq b a h2]
          simp only [Option.map_some']
          refine congrArg some ?_
          show overallSimilarity
              (contentSimilarity a.content b.content a.language)
              ((entitySimilarity a.entities b.entities : ℚ) : ℝ)
              ((keywordSimilarity a.keywords b.keywords : ℚ) : ℝ)
            = overallSimilarity
              (contentSimilarity b.content a.content b.language)
              ((entitySimilarity b.entities a.entities : ℚ) : ℝ)
              ((keywordSimilarity b.keywords a.keywords : ℚ) : ℝ)
          rw [← hl, contentSimilarity_comm b.content a.content,
            entitySimilarity_comm b.entities a.entities,
            keywordSimilarity_comm b.keywords a.keywords]
  · intro a b r h
    cases h1 : analyzeSentimentComparison a.content b.content a.language with
    | none =>
      rw [compareArticles_none a b h1] at h
      exact absurd h (by simp)
    | some sc =>
      rw [compareArticles_eq a b h1] at h
      obtain rfl := (Option.some.inj h).symm
      exact ⟨overallSimilarity_nonneg _ _ _, overallSimilarity_le_one _ _ _⟩

/-- Witness for `similarity_symmetric_and_bounded` at two concrete
same-language articles, including the bound on the realised score. -/
theorem similarity_symmetric_and_bounded_witness :
    Option.map ComparisonResult.similarity_score
      (compareArticles plainArticle mutArticle)
      = Option.map ComparisonResult.similarity_score
        (compareArticles mutArticle plainArticle)
    ∧ 0 ≤ (Option.map ComparisonResult.similarity_score
        (compareArticles plainArticle mutArticle)).getD 0
    ∧ (Option.map ComparisonResult.similarity_score
        (compareArticles plainArticle mutArticle)).getD 0 ≤ 1 := by
  obtain ⟨r, hr⟩ := compareArticles_isSome plainArticle mutArticle (by decide)
  have hb := similarity_symmetric_and_bounded.2 plainArticle mutArticle r hr
  refine ⟨similarity_symmetric_and_bounded.1 plainArticle mutArticle rfl,
    ?_, ?_⟩
  · rw [hr]
    simpa using hb.1
  · rw [hr]
    simpa using hb.2

theorem sentiment_the_en :
    analyzeSentiment "the" Language.en = some ⟨3/10, 4/10, 3/10⟩ := by
  rw [analyzeSentiment, if_neg (by decide), if_neg (by decide),
    if_pos (by decide)]

theorem sentiment_the_th :
    analyzeSentiment "the" Language.th = some ⟨3/10, 4/10, 3/10⟩ := by
  rw [analyzeSentiment, if_neg (by decide), if_neg (by decide),
    if_pos (by decide)]

theorem contentSimilarity_the_en :
    contentSimilarity "the" "the" Language.en = 0 := by
  rw [contentSimilarity, if_neg (by decide), if_neg (by decide),
    show docTerms (preprocess "the") (isEnglishFlag Language.en) = []
      from by decide,
    corpusCosine,
    if_pos (by
      simp only [buildVocab, sortStr_eq_insertionSort]
      rw [if_pos (by decide)]
      decide)]

theorem contentSimilarity_the_th :
    contentSimilarity "the" "the" Language.th = 1 := by
  apply contentSimilarity_self _ _ (by decide) (by decide)
  rw [show docTerms (preprocess "the") (isEnglishFlag Language.th) = ["the"]
    from by decide]
  simp only [buildVocab, sortStr_eq_insertionSort]
  rw [if_pos (by decide)]
  decide

/-- C2 counterexample: two articles with identical content `"the"` but
language tags `'en'` and `'th'`.  With English stop words the vocabulary
is empty and the score is 0; without them the contents are identical and
the score is 0.5.  `compare(a,b)` and `compare(b,a)` disagree, so
similarity is not symmetric for all articles. -/
theorem compare_not_symmetric :
    Option.map ComparisonResult.similarity_score
      (compareArticles stopwordArticleEn stopwordArticleTh) = some 0
    ∧ Option.map ComparisonResult.similarity_score
      (compareArticles stopwordArticleTh stopwordArticleEn) = some (1/2)
    ∧ ((0 : ℝ) ≠ 1/2) := by
  refine ⟨?_, ?_, by norm_num⟩
  · rw [compareArticles_eq stopwordArticleEn stopwordArticleTh
      (asc_eq _ _ _ sentiment_the_en sentiment_the_en)]
    simp only [Option.map_some']
    refine congrArg some ?_
    show overallSimilarity (contentSimilarity "the" "the" Language.en)
      ((entitySimilarity ⟨[], [], [], []⟩ ⟨[], [], [], []⟩ : ℚ) : ℝ)
      ((keywordSimilarity [] [] : ℚ) : ℝ) = 0
    rw [contentSimilarity_the_en,
      show entitySimilarity ⟨[], [], [], []⟩ ⟨[], [], [], []⟩ = 0 from by
        simp [entitySimilarity, entityTotal],
      show keywordSimilarity [] [] = 0 from by
        simp [keywordSimilarity, keywordSet]]
    push_cast
    exact overallSimilarity_000
  · rw [compareArticles_eq stopwordArticleTh stopwordArticleEn
      (asc_eq _ _ _ sentiment_the_th sentiment_the_th)]
    simp only [Option.map_some']
    refine congrArg some ?_
    show overallSimilarity (contentSimilarity "the" "the" Language.th)
      ((entitySimilarity ⟨[], [], [], []⟩ ⟨[], [], [], []⟩ : ℚ) : ℝ)
      ((keywordSimilarity [] [] : ℚ) : ℝ) = 1/2
    rw [contentSimilarity_the_th,
      show entitySimilarity ⟨[], [], [], []⟩ ⟨[], [], [], []⟩ = 0 from by
        simp [entitySimilarity, entityTotal],
      show keywordSimilarity [] [] = 0 from by
        simp [keywordSimilarity, keywordSet]]
    push_cast
    exact overallSimilarity_100

/-! ## C10: the pairwise similarity matrix -/

theorem allPairs_ne {n : Nat} {p : Nat × Nat} (h : p ∈ allPairs n) :
    p.1 ≠ p.2 := by
  rw [allPairs, List.mem_flatMap] at h
  obtain ⟨i, hi, hp⟩ := h
  rw [List.mem_map] at hp
  obtain ⟨j, hj, rfl⟩ := hp
  rw [List.mem_range'] at hj
  obtain ⟨t, -, rfl⟩ := hj
  simp
  omega

theorem getD_language (arts : List Article)
    (hmix : ∀ a ∈ arts, a.language ≠ Language.mixed) (i : Nat) :
    (arts.getD i {}).language ≠ Language.mixed := by
  cases hget : arts.get? i with
  | none =>
    simp only [List.getD, hget, Option.getD_none]
    decide
  | some a =>
    simp only [List.getD, hget, Option.getD_some]
    exact hmix a (List.get?_mem hget)

theorem matUpd_pair_diag {m : Nat → Nat → ℝ} {i0 j0 : Nat} (hne : i0 ≠ j0)
    (hd : ∀ i, m i i = 0) (v : ℝ) (i : Nat) :
    matUpd (matUpd m i0 j0 v) j0 i0 v i i = 0 := by
  simp only [matUpd]
  split_ifs with hA hB
  · exfalso; omega
  · exfalso; omega
  · exact hd i

theorem matUpd_pair_symm {m : Nat → Nat → ℝ} {i0 j0 : Nat} (_hne : i0 ≠ j0)
    (hs : ∀ i j, m i j = m j i) (v : ℝ) (i j : Nat) :
    matUpd (matUpd m i0 j0 v) j0 i0 v i j
      = matUpd (matUpd m i0 j0 v) j0 i0 v j i := by
  simp only [matUpd]
  split_ifs <;> first | rfl | exact hs i j | (exfalso; omega)

theorem foldFill_inv (arts : List Article)
    (hmix : ∀ a ∈ arts, a.language ≠ Language.mixed) :
    ∀ (pairs : List (Nat × Nat)), (∀ p ∈ pairs, p.1 ≠ p.2) →
    ∀ m0 : Nat → Nat → ℝ, (∀ i, m0 i i = 0) → (∀ i j, m0 i j = m0 j i) →
    ∃ m, pairs.foldl (fillStep arts) (some m0) = some m
      ∧ (∀ i, m i i = 0) ∧ (∀ i j, m i j = m j i) := by
  intro pairs
  induction pairs with
  | nil =>
    intro _ m0 hd hs
    exact ⟨m0, rfl, hd, hs⟩
  | cons p rest ih =>
    intro hne m0 hd hs
    obtain ⟨r, hr⟩ := compareArticles_isSome (arts.getD p.1 {})
      (arts.getD p.2 {}) (getD_language arts hmix p.1)
    have hstep : fillStep arts (some m0) p
        = some (matUpd (matUpd m0 p.1 p.2 r.similarity_score)
            p.2 p.1 r.similarity_score) := by
      simp only [fillStep, hr]
    rw [List.foldl_cons, hstep]
    have hpne : p.1 ≠ p.2 := hne p (List.mem_cons_self _ _)
    exact ih (fun q hq => hne q (List.mem_cons_of_mem _ hq)) _
      (matUpd_pair_diag hpne hd r.similarity_score)
      (matUpd_pair_symm hpne hs r.similarity_score)

/-- C10: on at least two articles (none tagged `'mixed'`, so that no
comparison raises), `compare_multiple_articles` succeeds and its
similarity matrix is symmetric with zeros on the diagonal — the loops
only write the `(i, j)`/`(j, i)` pairs with `i < j` and never compare an
article with itself. -/
theorem multi_matrix_symmetric_zero_diag (arts : List Article)
    (h2 : 2 ≤ arts.length)
    (hmix : ∀ a ∈ arts, a.language ≠ Language.mixed) :
    matrixSymmZeroDiag (compareMultiple arts) := by
  obtain ⟨m, hm, hd, hs⟩ := foldFill_inv arts hmix (allPairs arts.length)
    (fun p hp => allPairs_ne hp) (fun _ _ => 0) (fun _ => rfl)
    (fun _ _ => rfl)
  rw [compareMultiple, if_neg (by omega), fillMatrix, hm]
  exact ⟨hd, hs⟩

/-- Witness for `multi_matrix_symmetric_zero_diag` on a concrete
two-article list. -/
theorem multi_matrix_witness :
    matrixSymmZeroDiag (compareMultiple pairArts) :=
  multi_matrix_symmetric_zero_diag pairArts (by decide) (by decide)

end News
